import Mathlib

/-!
Formal model of the `unlock-gemini-cli` core: the OpenAI adapter
(`packages/core/src/openai/openai-adapter.ts`), the effective-model resolver
(`packages/core/src/core/modelCheck.ts`) and the model constants
(`packages/core/src/config/models.ts`).

The TypeScript code is shallowly embedded: each source function becomes a total
executable Lean function over explicit data types.  JavaScript `undefined` is
`Option.none`; a thrown exception is an `Except.error`; JavaScript truthiness
of optional strings (`undefined` and `""` are falsy) is made explicit.
-/

namespace UnlockGemini

/-! ## JSON runtime model

The adapter calls the JavaScript builtins `JSON.parse` and `JSON.stringify`.
These are not repository code, so they are modelled here: `JsValue` is the
JSON data universe and `jsonParse` / `jsonStringify` are an executable parser
and printer.  Numeric payloads are restricted to integers (no claim in this
development depends on fractional numbers; a fractional literal simply fails
to parse in the model). -/

inductive JsValue where
  | null : JsValue
  | bool (b : Bool) : JsValue
  | num (n : Int) : JsValue
  | str (s : String) : JsValue
  | arr (elems : List JsValue) : JsValue
  | obj (fields : List (String × JsValue)) : JsValue
deriving Repr

def escapeJsonChar (c : Char) : String :=
  if c = '"' then "\\\"" else if c = '\\' then "\\\\" else String.singleton c

def escapeJson (s : String) : String :=
  String.join (s.data.map escapeJsonChar)

mutual

def jsonStringify : JsValue → String
  | .null => "null"
  | .bool true => "true"
  | .bool false => "false"
  | .num n => toString n
  | .str s => "\"" ++ escapeJson s ++ "\""
  | .arr elems => "[" ++ jsonStringifyElems elems ++ "]"
  | .obj fields => "\x7b" ++ jsonStringifyFields fields ++ "\x7d"

/-- Comma-separated rendering of array elements. -/
def jsonStringifyElems : List JsValue → String
  | [] => ""
  | [v] => jsonStringify v
  | v :: rest => jsonStringify v ++ "," ++ jsonStringifyElems rest

/-- Comma-separated rendering of object members. -/
def jsonStringifyFields : List (String × JsValue) → String
  | [] => ""
  | [(k, v)] => "\"" ++ escapeJson k ++ "\":" ++ jsonStringify v
  | (k, v) :: rest =>
      "\"" ++ escapeJson k ++ "\":" ++ jsonStringify v ++ "," ++ jsonStringifyFields rest

end

def skipWsChars : List Char → List Char
  | [] => []
  | c :: rest =>
      if c = ' ' ∨ c = '\n' ∨ c = '\t' ∨ c = '\r' then skipWsChars rest else c :: rest

/-- Parse the body of a JSON string literal, positioned after the opening quote. -/
def parseStringBody : List Char → Option (String × List Char)
  | [] => none
  | '"' :: rest => some ("", rest)
  | '\\' :: [] => none
  | '\\' :: e :: rest =>
      let ec := if e = 'n' then '\n' else if e = 't' then '\t' else if e = 'r' then '\r' else e
      match parseStringBody rest with
      | some (s, r) => some (String.singleton ec ++ s, r)
      | none => none
  | c :: rest =>
      match parseStringBody rest with
      | some (s, r) => some (String.singleton c ++ s, r)
      | none => none

def parseDigits : List Char → List Char × List Char
  | [] => ([], [])
  | c :: rest =>
      if c.isDigit then
        let (ds, r) := parseDigits rest
        (c :: ds, r)
      else ([], c :: rest)

def digitsToNat (ds : List Char) : Nat :=
  ds.foldl (fun a c => a * 10 + (c.toNat - 48)) 0

def parseJsonNumber : List Char → Option (JsValue × List Char)
  | '-' :: rest =>
      let (ds, r) := parseDigits rest
      if ds = [] then none else some (.num (-(digitsToNat ds : Int)), r)
  | cs =>
      let (ds, r) := parseDigits cs
      if ds = [] then none else some (.num (digitsToNat ds : Int), r)

def stripLit : List Char → List Char → Option (List Char)
  | [], rest => some rest
  | l :: ls, c :: rest => if c = l then stripLit ls rest else none
  | _ :: _, [] => none

mutual

def parseJsonValue : Nat → List Char → Option (JsValue × List Char)
  | 0, _ => none
  | Nat.succ fuel, cs =>
      match skipWsChars cs with
      | [] => none
      | c :: rest =>
          if c = '"' then
            match parseStringBody rest with
            | some (s, r) => some (.str s, r)
            | none => none
          else if c = '\x7b' then
            match skipWsChars rest with
            | '\x7d' :: r => some (.obj [], r)
            | other =>
                match parseObjMembers fuel other with
                | some (ms, r) => some (.obj ms, r)
                | none => none
          else if c = '[' then
            match skipWsChars rest with
            | ']' :: r => some (.arr [], r)
            | other =>
                match parseArrElems fuel other with
                | some (vs, r) => some (.arr vs, r)
                | none => none
          else if c = 't' then
            match stripLit ['t', 'r', 'u', 'e'] (c :: rest) with
            | some r => some (.bool true, r)
            | none => none
          else if c = 'f' then
            match stripLit ['f', 'a', 'l', 's', 'e'] (c :: rest) with
            | some r => some (.bool false, r)
            | none => none
          else if c = 'n' then
            match stripLit ['n', 'u', 'l', 'l'] (c :: rest) with
            | some r => some (.null, r)
            | none => none
          else
            parseJsonNumber (c :: rest)

def parseObjMembers : Nat → List Char → Option (List (String × JsValue) × List Char)
  | 0, _ => none
  | Nat.succ fuel, cs =>
      match skipWsChars cs with
      | '"' :: rest =>
          match parseStringBody rest with
          | some (k, r1) =>
              match skipWsChars r1 with
              | ':' :: r2 =>
                  match parseJsonValue fuel r2 with
                  | some (v, r3) =>
                      match skipWsChars r3 with
                      | ',' :: r4 =>
                          match parseObjMembers fuel r4 with
                          | some (ms, r5) => some ((k, v) :: ms, r5)
                          | none => none
                      | '\x7d' :: r4 => some ([(k, v)], r4)
                      | _ => none
                  | none => none
              | _ => none
          | none => none
      | _ => none

def parseArrElems : Nat → List Char → Option (List JsValue × List Char)
  | 0, _ => none
  | Nat.succ fuel, cs =>
      match parseJsonValue fuel cs with
      | some (v, r) =>
          match skipWsChars r with
          | ',' :: r2 =>
              match parseArrElems fuel r2 with
              | some (vs, r3) => some (v :: vs, r3)
              | none => none
          | ']' :: r2 => some ([v], r2)
          | _ => none
      | none => none

end

/-- Model of `JSON.parse`: `none` is a thrown `SyntaxError`. -/
def jsonParse (s : String) : Option JsValue :=
  match parseJsonValue (2 * s.length + 4) s.data with
  | some (v, rest) => if skipWsChars rest = [] then some v else none
  | none => none

/-- JavaScript truthiness of an optional string: `undefined` and `""` are falsy. -/
def jsTruthy : Option String → Bool
  | some s => s ≠ ""
  | none => false

/-- `x || undefined` on an optional string: collapses a falsy value to `undefined`. -/
def truthyOpt (o : Option String) : Option String :=
  match o with
  | some s => if s = "" then none else some s
  | none => none

/-! ## Provider-agnostic data model (`openai-adapter.ts` interfaces) -/

/-- `FunctionCall` (openai-adapter.ts).  The TS interface declares `name: string`,
but the streaming response path can materialize `undefined` at runtime (a delta
tool-call fragment's `function.name` is optional), so the field is an `Option`.
`args` is declared `Record<string, unknown>` but is populated with whatever
`JSON.parse` returns, hence a full `JsValue`. -/
structure FunctionCall where
  name : Option String
  args : JsValue
  id : Option String := none
deriving Repr

structure FunctionResponse where
  name : String
  response : JsValue
  id : Option String := none
deriving Repr

structure InlineData where
  mimeType : String
  data : String
deriving Repr

structure FileData where
  mimeType : String
  fileUri : String
deriving Repr

/-- `Part` (openai-adapter.ts): a record of optional fields. -/
structure Part where
  text : Option String := none
  functionCall : Option FunctionCall := none
  functionResponse : Option FunctionResponse := none
  inlineData : Option InlineData := none
  fileData : Option FileData := none
  thought : Option String := none
deriving Repr

def Part.textPart (s : String) : Part := { text := some s }

/-- `Content` (openai-adapter.ts): one conversational turn. -/
structure Content where
  role : String
  parts : List Part
deriving Repr

/-! ## Backend (OpenAI) message shapes -/

structure ToolCallFunction where
  name : Option String
  arguments : String
deriving Repr, DecidableEq

/-- One entry of an assistant message's `tool_calls` array.  The source always
sets `type: 'function'`, and the SDK's request type fixes that literal, so the
tag is not modelled. -/
structure MessageToolCall where
  id : String
  function : ToolCallFunction
deriving Repr, DecidableEq

/-- `OpenAI.Chat.ChatCompletionMessageParam`, restricted to the shapes the
source constructs: a plain role/content message, an assistant message carrying
tool calls (content may be `null`), and a `tool` result message. -/
inductive ChatMessage where
  | plain (role : String) (content : String)
  | assistantToolCalls (content : Option String) (tool_calls : List MessageToolCall)
  | toolResult (tool_call_id : String) (content : String)
deriving Repr, DecidableEq

/-! ## Message converter (`convertContentsToMessages`) -/

/-- Role mapping, transcribed from the source's if/else chain (the final
ternary `content.role === 'assistant' ? 'assistant' : 'user'` is kept verbatim
even though its first branch is unreachable there). -/
def mapRole (role : String) : String :=
  if role = "model" then "assistant"
  else if role = "user" ∨ role = "system" ∨ role = "assistant" then role
  else if role = "assistant" then "assistant" else "user"

/-- `content.parts.some(part => part.functionCall || part.functionResponse)` -/
def hasToolParts (c : Content) : Bool :=
  c.parts.any (fun p => p.functionCall.isSome || p.functionResponse.isSome)

/-- `content.parts.filter(part => part.text)` (truthy: present and non-empty). -/
def contentTextParts (parts : List Part) : List Part :=
  parts.filter (fun p => jsTruthy p.text)

/-- `content.parts.filter(part => part.functionCall)`, each mapped to its
(present) `functionCall` payload. -/
def partFunctionCalls (parts : List Part) : List FunctionCall :=
  parts.filterMap (fun p => p.functionCall)

def partFunctionResponses (parts : List Part) : List FunctionResponse :=
  parts.filterMap (fun p => p.functionResponse)

/-- `Array.prototype.join(sep)` (semantically `String.intercalate`, written
with transparent recursion). -/
def joinSep (sep : String) : List String → String
  | [] => ""
  | [x] => x
  | x :: rest => x ++ sep ++ joinSep sep rest

/-- One generated tool-call identifier.  The source draws
`` call_${Math.random().toString(36).substr(2, 9)} `` at each generation
site.  The random draws are modelled as an oracle `rng : Nat → String` giving
the `n`-th draw of the request; a counter threaded through the conversion
selects the draws in generation order.  Nothing constrains the oracle:
distinct draws are what the source's generator makes probable, but a
collision between two draws is possible and is a legitimate execution. -/
def callIdOf (rng : Nat → String) (n : Nat) : String :=
  "call_" ++ rng n

/-- A sample draw sequence with pairwise-distinct draws, used by witnesses. -/
def exampleDraws (n : Nat) : String :=
  String.mk (List.replicate n 'x')

/-- Rendering of one part of a pure (non-tool) content turn:
truthy text, else an inline-data placeholder, else `''`. -/
def purePartText (p : Part) : String :=
  if jsTruthy p.text then p.text.getD ""
  else
    match p.inlineData with
    | some d => "[" ++ d.mimeType ++ " data]"
    | none => ""

/-- Convert one `Content` turn to backend messages.  `rng` is the request's
random draw sequence and `counter` the index of the next draw; the returned
`Nat` is the advanced counter. -/
def convertContent (rng : Nat → String) (counter : Nat) (c : Content) :
    List ChatMessage × Nat :=
  let role := mapRole c.role
  if hasToolParts c then
    let tps := contentTextParts c.parts
    let fcs := partFunctionCalls c.parts
    let frs := partFunctionResponses c.parts
    let callMsgs : List ChatMessage :=
      if fcs.length > 0 then
        -- `content: textParts.map(part => part.text).join('\n') || null`
        let joined := joinSep "\n" (tps.map (fun p => p.text.getD ""))
        let body : Option String := if joined = "" then none else some joined
        [ChatMessage.assistantToolCalls body
          (fcs.enum.map (fun e =>
            { id := callIdOf rng (counter + e.1)
              function := { name := e.2.name, arguments := jsonStringify e.2.args } }))]
      else []
    let counter1 := if fcs.length > 0 then counter + fcs.length else counter
    let respMsgs : List ChatMessage :=
      frs.enum.map (fun e =>
        ChatMessage.toolResult (callIdOf rng (counter1 + e.1)) (jsonStringify e.2.response))
    (callMsgs ++ respMsgs, counter1 + frs.length)
  else
    let body :=
      joinSep "\n" ((c.parts.map purePartText).filter (fun s => s ≠ ""))
    ([ChatMessage.plain role body], counter)

def convertContentsGo (rng : Nat → String) : List Content → Nat → List ChatMessage
  | [], _ => []
  | c :: rest, counter =>
      let step := convertContent rng counter c
      step.1 ++ convertContentsGo rng rest step.2

/-- `convertContentsToMessages(contents)`, given the request's draw
sequence. -/
def convertContentsToMessages (rng : Nat → String) (contents : List Content) :
    List ChatMessage :=
  convertContentsGo rng contents 0

/-! ## System instruction (`generateContent` / `generateContentStreamInternal`)

Both facade entry points contain the identical prologue: convert the contents,
then, when `request.config?.systemInstruction` is truthy, extract its text and
`unshift` a system message when that text is non-empty. -/

inductive SystemInstruction where
  | str (s : String)
  | content (c : Content)
deriving Repr

/-- Text extraction for a `Content`-valued system instruction:
`parts.map(part => part.text).filter(Boolean).join('\n')`. -/
def systemInstructionText : SystemInstruction → String
  | .str s => s
  | .content c =>
      joinSep "\n" ((c.parts.filterMap (fun p => p.text)).filter (fun t => t ≠ ""))

/-- Truthiness of `request.config?.systemInstruction`: an empty string is
falsy, a `Content` object is always truthy. -/
def systemInstructionTruthy : SystemInstruction → Bool
  | .str s => s ≠ ""
  | .content _ => true

/-- The message sequence handed to the backend by `generateContent` and
`generateContentStreamInternal` (identical code in both). -/
def buildRequestMessages (rng : Nat → String) (contents : List Content)
    (si : Option SystemInstruction) : List ChatMessage :=
  let messages := convertContentsToMessages rng contents
  match si with
  | none => messages
  | some si =>
      if systemInstructionTruthy si then
        let systemContent := systemInstructionText si
        if systemContent ≠ "" then ChatMessage.plain "system" systemContent :: messages
        else messages
      else messages

/-! ## Schema converter (`convertSchemaToOpenAI`) -/

/-- `SchemaUnion` (openai-adapter.ts).  `anyOf`, `default` and the index
signature extension bag are part of the interface but ignored by the
converter; `default` and the extension bag carry arbitrary JSON. -/
inductive SchemaUnion where
  | mk (type : String)
       (properties : Option (List (String × SchemaUnion)))
       (items : Option SchemaUnion)
       (required : Option (List String))
       (enumVals : Option (List String))
       (description : Option String)
       (anyOf : Option (List SchemaUnion))
       (otherFields : List (String × JsValue))

def SchemaUnion.type : SchemaUnion → String
  | .mk t _ _ _ _ _ _ _ => t

def SchemaUnion.properties : SchemaUnion → Option (List (String × SchemaUnion))
  | .mk _ p _ _ _ _ _ _ => p

def SchemaUnion.items : SchemaUnion → Option SchemaUnion
  | .mk _ _ i _ _ _ _ _ => i

def SchemaUnion.required : SchemaUnion → Option (List String)
  | .mk _ _ _ r _ _ _ _ => r

def SchemaUnion.enumVals : SchemaUnion → Option (List String)
  | .mk _ _ _ _ e _ _ _ => e

def SchemaUnion.description : SchemaUnion → Option String
  | .mk _ _ _ _ _ d _ _ => d

/-- The object built by `convertSchemaToOpenAI`, with fields in insertion
order; an `Option` field valued `none` models an omitted key. -/
inductive OpenAISchema where
  | mk (type : String)
       (description : Option String)
       (properties : Option (List (String × OpenAISchema)))
       (items : Option OpenAISchema)
       (required : Option (List String))
       (enumVals : Option (List String))

def OpenAISchema.type : OpenAISchema → String
  | .mk t _ _ _ _ _ => t

def OpenAISchema.description : OpenAISchema → Option String
  | .mk _ d _ _ _ _ => d

def OpenAISchema.properties : OpenAISchema → Option (List (String × OpenAISchema))
  | .mk _ _ p _ _ _ => p

def OpenAISchema.items : OpenAISchema → Option OpenAISchema
  | .mk _ _ _ i _ _ => i

def OpenAISchema.required : OpenAISchema → Option (List String)
  | .mk _ _ _ _ r _ => r

def OpenAISchema.enumVals : OpenAISchema → Option (List String)
  | .mk _ _ _ _ _ e => e

/-- `String.prototype.toLowerCase`, character by character (the standard
library's `String.toLower` has the same value but is opaque to kernel
reduction). -/
def lowerString (s : String) : String :=
  String.mk (s.data.map Char.toLower)

mutual

/-- `convertSchemaToOpenAI(schema)`.  Field guards are JS truthiness checks:
a present-but-empty `description` is falsy and therefore omitted, while a
present `properties`/`items`/`required`/`enum` value is an object or array and
hence always truthy. -/
def convertSchemaToOpenAI : SchemaUnion → OpenAISchema
  | .mk ty props itms req ens desc _anyOf _other =>
      OpenAISchema.mk
        (lowerString ty)
        (match desc with
         | some d => if d = "" then none else some d
         | none => none)
        (convertSchemaPropsOpt props)
        (convertSchemaItemsOpt itms)
        req
        ens
termination_by structural s => s

def convertSchemaPropsOpt :
    Option (List (String × SchemaUnion)) → Option (List (String × OpenAISchema))
  | some l => some (convertSchemaProps l)
  | none => none
termination_by structural o => o

def convertSchemaProps : List (String × SchemaUnion) → List (String × OpenAISchema)
  | [] => []
  | (k, v) :: rest => (k, convertSchemaToOpenAI v) :: convertSchemaProps rest
termination_by structural l => l

def convertSchemaItemsOpt : Option SchemaUnion → Option OpenAISchema
  | some s => some (convertSchemaToOpenAI s)
  | none => none
termination_by structural o => o

end

/-! ## Non-streaming response synthesis (`convertOpenAIResponseToGenAI`) -/

structure CompletionFunction where
  name : String
  arguments : String
deriving Repr

/-- `OpenAI.Chat.ChatCompletionMessageToolCall`.  The SDK fixes the `type`
field to the literal `'function'`, so the source's `toolCall.type ===
'function'` check on this (non-streaming) shape is always true and the tag is
not modelled. -/
structure CompletionToolCall where
  id : String
  function : CompletionFunction
deriving Repr

structure CompletionMessage where
  content : Option String
  tool_calls : Option (List CompletionToolCall)
deriving Repr

structure CompletionChoice where
  message : CompletionMessage
  finish_reason : Option String
  index : Nat
deriving Repr

structure CompletionUsage where
  prompt_tokens : Nat
  completion_tokens : Nat
  total_tokens : Nat
deriving Repr, DecidableEq

structure ChatCompletion where
  choices : List CompletionChoice
  usage : Option CompletionUsage
deriving Repr

structure Candidate where
  content : Content
  finishReason : Option String
  index : Nat
deriving Repr

structure UsageMetadata where
  promptTokenCount : Option Nat
  candidatesTokenCount : Option Nat
  totalTokenCount : Option Nat
deriving Repr, DecidableEq

structure GenerateContentResponse where
  candidates : List Candidate
  usageMetadata : Option UsageMetadata
deriving Repr

/-- `JSON.parse(toolCall.function.arguments || '{}')`: a falsy argument string
is replaced by `'{}'`; a parse failure is a thrown `SyntaxError`. -/
def parseToolArguments (arguments : String) : Except String JsValue :=
  match jsonParse (if arguments = "" then "\x7b\x7d" else arguments) with
  | some v => .ok v
  | none => .error ("Unexpected token in JSON: " ++ arguments)

/-- The `for (const toolCall of choice.message.tool_calls)` loop of
`convertOpenAIResponseToGenAI`: one function-call part per invocation, in
order; the first `JSON.parse` failure throws out of the loop. -/
def completionCallParts : List CompletionToolCall → Except String (List Part)
  | [] => .ok []
  | tc :: rest => do
      let args ← parseToolArguments tc.function.arguments
      let ps ← completionCallParts rest
      pure (({ functionCall := some { name := some tc.function.name, args := args } } : Part) :: ps)

/-- `convertOpenAIResponseToGenAI(response)`.  An `Except.error` is an
exception escaping the function (a `JSON.parse` failure); `generateContent`
catches it and rewraps it, see `generateContentOfCompletion`. -/
def convertOpenAIResponseToGenAI (response : ChatCompletion) :
    Except String GenerateContentResponse :=
  match response.choices.head? with
  | none => .ok { candidates := [], usageMetadata := none }
  | some choice => do
      let textParts : List Part :=
        if jsTruthy choice.message.content then [Part.textPart (choice.message.content.getD "")]
        else []
      let callParts ← completionCallParts (choice.message.tool_calls.getD [])
      pure
        { candidates :=
            [{ content := { role := "model", parts := textParts ++ callParts }
               finishReason := truthyOpt choice.finish_reason
               index := choice.index }]
          usageMetadata := some
            { promptTokenCount := response.usage.map (fun u => u.prompt_tokens)
              candidatesTokenCount := response.usage.map (fun u => u.completion_tokens)
              totalTokenCount := response.usage.map (fun u => u.total_tokens) } }

/-- The response half of `generateContent`: any exception from the conversion
is caught and rewrapped as `new Error('OpenAI API error: ...')`.  (Message
building and the network call are upstream of this and modelled separately.) -/
def generateContentOfCompletion (completion : ChatCompletion) :
    Except String GenerateContentResponse :=
  (convertOpenAIResponseToGenAI completion).mapError (fun msg => "OpenAI API error: " ++ msg)

/-! ## Streaming (`generateContentStreamInternal` / `createStreamResponse`)

A streamed chunk's delta tool-call fragments
(`OpenAI.Chat.ChatCompletionChunk.Choice.Delta.ToolCall`) have an *optional*
`type` tag and an optional `function` object with optional `name`/`arguments`
(continuation fragments carry neither tag nor name). -/

structure DeltaFunction where
  name : Option String
  arguments : Option String
deriving Repr, DecidableEq

structure DeltaToolCall where
  type : Option String
  function : Option DeltaFunction
deriving Repr, DecidableEq

structure ChunkDelta where
  content : Option String
  tool_calls : Option (List DeltaToolCall)
deriving Repr, DecidableEq

structure ChunkChoice where
  delta : ChunkDelta
  finish_reason : Option String
deriving Repr, DecidableEq

structure StreamChunk where
  choices : List ChunkChoice
deriving Repr, DecidableEq

/-- The fragment loop of `createStreamResponse`: fragments not tagged
`type === 'function'` contribute nothing; for a tagged fragment the source
reads `toolCall.function.name` (a `TypeError` if `function` is absent) and
parses `toolCall.function.arguments || '{}'`, the first failure throwing out
of the loop. -/
def streamCallParts : List DeltaToolCall → Except String (List Part)
  | [] => .ok []
  | tc :: rest =>
      if tc.type = some "function" then
        match tc.function with
        | none => .error "TypeError: Cannot read properties of undefined"
        | some f => do
            let args ← parseToolArguments (f.arguments.getD "")
            let ps ← streamCallParts rest
            pure (({ functionCall := some { name := f.name, args := args } } : Part) :: ps)
      else streamCallParts rest

/-- `createStreamResponse(content, isComplete, toolCalls?)`. -/
def createStreamResponse (content : String) (isComplete : Bool)
    (toolCalls : Option (List DeltaToolCall)) : Except String GenerateContentResponse := do
  let textParts : List Part := if content ≠ "" then [Part.textPart content] else []
  let callParts ←
    match toolCalls with
    | some tcs => streamCallParts tcs
    | none => pure []
  pure
    { candidates :=
        [{ content := { role := "model", parts := textParts ++ callParts }
           finishReason := if isComplete then some "stop" else none
           index := 0 }]
      usageMetadata := none }

/-- The consumption loop of `generateContentStreamInternal`, as a function of
the backend's chunk sequence.  The result is the list of snapshots yielded to
the caller, paired with `some err` when the generator threw (the catch block
rewraps any exception as `OpenAI API error: ...`) instead of finishing
normally. -/
def runStream : List StreamChunk → String → List DeltaToolCall →
    List GenerateContentResponse × Option String
  | [], _, _ => ([], none)
  | chunk :: rest, acc, buf =>
      match chunk.choices.head? with
      | none => runStream rest acc buf
      | some ch =>
          let hasContent := jsTruthy ch.delta.content
          let acc1 := if hasContent then acc ++ ch.delta.content.getD "" else acc
          let out1 : List GenerateContentResponse :=
            if hasContent then
              match createStreamResponse acc1 false none with
              | .ok r => [r]
              | .error _ => []  -- unreachable: no tool calls are passed here
            else []
          let buf1 :=
            match ch.delta.tool_calls with
            | some tcs => buf ++ tcs
            | none => buf
          if jsTruthy ch.finish_reason then
            match createStreamResponse acc1 true (some buf1) with
            | .ok r => (out1 ++ [r], none)
            | .error e => (out1, some ("OpenAI API error: " ++ e))
          else
            let res := runStream rest acc1 buf1
            (out1 ++ res.1, res.2)

/-- The snapshot sequence produced by `generateContentStream` for a given
backend chunk sequence (fresh accumulator and fragment buffer per call). -/
def generateContentStreamOfChunks (chunks : List StreamChunk) :
    List GenerateContentResponse × Option String :=
  runStream chunks "" []

/-! ## `countTokens` -/

/-- `countTokens(request)`: every part of every turn contributes
`part.text || ''` to a space-joined string whose character count is divided by
4, rounding up. -/
def countTokens (contents : List Content) : Nat :=
  let text :=
    joinSep " " ((contents.flatMap (fun c => c.parts)).map (fun p => p.text.getD ""))
  (text.length + 3) / 4

/-! ## Effective-model resolver (`modelCheck.ts`, `models.ts`) -/

def DEFAULT_OPENAI_MODEL : String := "gpt-4o"

def DEFAULT_OPENAI_FLASH_MODEL : String := "gpt-4o-mini"

/-- Outcome of the probe request issued by `getEffectiveModel`.  The source
reads nothing from a resolved response but its `status`, so a success, any
error status and a malformed body are all `httpResponse status`; a rejected
`fetch` (network/transport failure, or the 2-second `AbortController`
timeout) is `failure` and lands in the catch block. -/
inductive ProbeOutcome where
  | httpResponse (status : Nat)
  | failure
deriving Repr, DecidableEq

/-- `getEffectiveModel(apiKey, currentConfiguredModel)`.  The first component
is the returned model identifier; the second records whether the probe request
was issued at all (the source returns before fetching when the configured
model is not the primary one).  The function is total: every exception from
the probe is caught, so no outcome throws. -/
def getEffectiveModel (currentConfiguredModel : String) (probe : ProbeOutcome) :
    String × Bool :=
  if currentConfiguredModel ≠ DEFAULT_OPENAI_MODEL then
    (currentConfiguredModel, false)
  else
    match probe with
    | .httpResponse status =>
        if status = 429 then (DEFAULT_OPENAI_FLASH_MODEL, true)
        else (currentConfiguredModel, true)
    | .failure => (currentConfiguredModel, true)

/-! # Claims

## C2 — effective-model resolution -/

/-- C2: `getEffectiveModel` never throws (it is a total function of the probe
outcome) and resolves the session model as follows: a configured model other
than the primary identifier is returned unchanged with no probe issued; when
the configured model is the primary one, a probe answering HTTP 429 yields the
fallback identifier, and every other probe outcome — any other HTTP status,
success or malformed response (both just a status here), elapsed timeout or
network failure (both a rejected fetch) — keeps the primary identifier. -/
theorem c2_effective_model_resolution (model : String) (probe : ProbeOutcome) :
    (model ≠ DEFAULT_OPENAI_MODEL → getEffectiveModel model probe = (model, false)) ∧
    (model = DEFAULT_OPENAI_MODEL → probe = ProbeOutcome.httpResponse 429 →
      getEffectiveModel model probe = (DEFAULT_OPENAI_FLASH_MODEL, true)) ∧
    (model = DEFAULT_OPENAI_MODEL → probe ≠ ProbeOutcome.httpResponse 429 →
      getEffectiveModel model probe = (DEFAULT_OPENAI_MODEL, true)) := by
  refine ⟨fun h => ?_, fun h h429 => ?_, fun h hne => ?_⟩
  · simp [getEffectiveModel, h]
  · subst h; subst h429; simp [getEffectiveModel]
  · subst h
    cases probe with
    | httpResponse s =>
        have hs : s ≠ 429 := fun hs => hne (by rw [hs])
        simp [getEffectiveModel, hs]
    | failure => simp [getEffectiveModel]

/-- Witness for C2: a custom model skips the probe; 429 downgrades; 500 keeps
the primary model. -/
theorem c2_effective_model_resolution_witness :
    ("my-model" ≠ DEFAULT_OPENAI_MODEL ∧
      getEffectiveModel "my-model" ProbeOutcome.failure = ("my-model", false)) ∧
    getEffectiveModel DEFAULT_OPENAI_MODEL (ProbeOutcome.httpResponse 429) =
      (DEFAULT_OPENAI_FLASH_MODEL, true) ∧
    (ProbeOutcome.httpResponse 500 ≠ ProbeOutcome.httpResponse 429 ∧
      getEffectiveModel DEFAULT_OPENAI_MODEL (ProbeOutcome.httpResponse 500) =
        (DEFAULT_OPENAI_MODEL, true)) :=
  ⟨⟨by decide, (c2_effective_model_resolution "my-model" ProbeOutcome.failure).1 (by decide)⟩,
   (c2_effective_model_resolution DEFAULT_OPENAI_MODEL (ProbeOutcome.httpResponse 429)).2.1
     rfl rfl,
   ⟨by decide,
    (c2_effective_model_resolution DEFAULT_OPENAI_MODEL (ProbeOutcome.httpResponse 500)).2.2
      rfl (by decide)⟩⟩

/-! ## C7 — `countTokens` -/

/-- Spec side of claim C7 as written: the space-joined concatenation of all
text parts (parts carrying a `text` payload) of all content turns. -/
def specC7TextPartsJoined (contents : List Content) : String :=
  joinSep " " ((contents.flatMap (fun c => c.parts)).filterMap (fun p => p.text))

/-- Spec side of claim C7 as amended: every part of every turn contributes its
text — or the empty string, for a non-text part — and the contributions are
space-joined. -/
def specC7AllPartsJoined (contents : List Content) : String :=
  joinSep " " ((contents.flatMap (fun c => c.parts)).map (fun p => p.text.getD ""))

def c7FortyCharText : String := String.mk (List.replicate 40 'a')

/-- A `countTokens` request whose single turn holds one 40-character text part
and one function-call part. -/
def c7Contents : List Content :=
  [{ role := "user",
     parts := [Part.textPart c7FortyCharText,
               { functionCall := some { name := some "f", args := JsValue.obj [] } }] }]

/-- C7 counterexample: on a turn with a 40-character text part and one
function-call part, `countTokens` returns ceil(41/4) = 11 — the function-call
part contributes an empty string that still costs a space separator — while
the claim's formula over the text parts alone gives ceil(40/4) = 10. -/
theorem c7_counterexample :
    countTokens c7Contents = 11 ∧
    ((specC7TextPartsJoined c7Contents).length + 3) / 4 = 10 ∧
    countTokens c7Contents ≠ ((specC7TextPartsJoined c7Contents).length + 3) / 4 :=
  ⟨rfl, rfl, by decide⟩

lemma map_textGetD_eq_filterMap :
    ∀ (l : List Part), (∀ p ∈ l, p.text.isSome) →
      l.map (fun p => p.text.getD "") = l.filterMap (fun p => p.text) := by
  intro l
  induction l with
  | nil => intro _; rfl
  | cons p rest ih =>
      intro h
      have hp := h p (List.mem_cons_self _ _)
      obtain ⟨t, ht⟩ := Option.isSome_iff_exists.mp hp
      simp only [List.map_cons, List.filterMap_cons, ht, Option.getD_some]
      rw [ih (fun q hq => h q (List.mem_cons_of_mem _ hq))]

/-- C7 (amended): the estimate is ceil(n/4) where n counts the space-joined
per-part contributions of *every* part (non-text parts contributing empty
strings that still add separators); this coincides with the claimed text-parts
formula whenever every part is a text part, and a single 40-character text
part yields exactly 10. -/
theorem c7_count_tokens :
    (∀ contents : List Content,
      countTokens contents = ((specC7AllPartsJoined contents).length + 3) / 4) ∧
    (∀ contents : List Content,
      (∀ p ∈ contents.flatMap (fun c => c.parts), p.text.isSome) →
      countTokens contents = ((specC7TextPartsJoined contents).length + 3) / 4) ∧
    countTokens [{ role := "user", parts := [Part.textPart c7FortyCharText] }] = 10 := by
  refine ⟨fun contents => rfl, fun contents h => ?_, rfl⟩
  simp only [countTokens, specC7TextPartsJoined]
  rw [map_textGetD_eq_filterMap _ h]

/-- Witness for C7's conditioned conjunct at an all-text-parts request. -/
theorem c7_count_tokens_witness :
    (∀ p ∈ ([{ role := "user", parts := [Part.textPart "one", Part.textPart "two"] }] :
        List Content).flatMap (fun c => c.parts), p.text.isSome) ∧
    countTokens [{ role := "user", parts := [Part.textPart "one", Part.textPart "two"] }] =
      ((specC7TextPartsJoined
          [{ role := "user", parts := [Part.textPart "one", Part.textPart "two"] }]).length + 3) / 4 :=
  ⟨by decide,
   c7_count_tokens.2.1 [{ role := "user", parts := [Part.textPart "one", Part.textPart "two"] }]
     (by decide)⟩

/-! ## C8 — schema conversion -/

lemma convertSchemaProps_eq_map :
    ∀ l : List (String × SchemaUnion),
      convertSchemaProps l = l.map (fun kv => (kv.1, convertSchemaToOpenAI kv.2)) := by
  intro l
  induction l with
  | nil => rfl
  | cons kv rest ih =>
      obtain ⟨k, v⟩ := kv
      simp only [convertSchemaProps, ih, List.map_cons]

/-- C8 counterexample: a schema whose `description` is present but empty.  The
claim says `description` is "copied verbatim when present", yet the converter's
JS truthiness guard drops the empty string entirely. -/
theorem c8_counterexample :
    (SchemaUnion.mk "STRING" none none none none (some "") none []).description = some "" ∧
    (convertSchemaToOpenAI
      (SchemaUnion.mk "STRING" none none none none (some "") none [])).description = none :=
  ⟨rfl, rfl⟩

/-- C8 (amended): `convertSchemaToOpenAI` lower-cases the type tag, converts
`properties` and `items` recursively, copies `required` and `enum` verbatim
when present, copies `description` verbatim when present *and non-empty* (an
empty description is dropped like an absent one), and omits every absent field
entirely; in particular on a schema with only `type`/`properties`/`required`
populated the result populates exactly those three fields. -/
theorem c8_convert_schema :
    (∀ s : SchemaUnion, (convertSchemaToOpenAI s).type = lowerString s.type) ∧
    (∀ s : SchemaUnion, (convertSchemaToOpenAI s).required = s.required) ∧
    (∀ s : SchemaUnion, (convertSchemaToOpenAI s).enumVals = s.enumVals) ∧
    (∀ s : SchemaUnion, (convertSchemaToOpenAI s).description =
      (match s.description with
       | some d => if d = "" then none else some d
       | none => none)) ∧
    (∀ s : SchemaUnion, (convertSchemaToOpenAI s).properties =
      s.properties.map (fun l => l.map (fun kv => (kv.1, convertSchemaToOpenAI kv.2)))) ∧
    (∀ s : SchemaUnion, (convertSchemaToOpenAI s).items = s.items.map convertSchemaToOpenAI) ∧
    (∀ s : SchemaUnion, s.description = none → s.items = none → s.enumVals = none →
      (convertSchemaToOpenAI s).description = none ∧
      (convertSchemaToOpenAI s).items = none ∧
      (convertSchemaToOpenAI s).enumVals = none ∧
      ((convertSchemaToOpenAI s).properties).isSome = (s.properties).isSome ∧
      (convertSchemaToOpenAI s).required = s.required) := by
  have hprops : ∀ s : SchemaUnion, (convertSchemaToOpenAI s).properties =
      s.properties.map (fun l => l.map (fun kv => (kv.1, convertSchemaToOpenAI kv.2))) := by
    intro s
    obtain ⟨ty, props, itms, req, ens, desc, hanyOf, hother⟩ := s
    cases props with
    | none => rfl
    | some l =>
        simp only [convertSchemaToOpenAI, convertSchemaPropsOpt, convertSchemaProps_eq_map,
          SchemaUnion.properties, OpenAISchema.properties, Option.map_some']
  have hitems : ∀ s : SchemaUnion,
      (convertSchemaToOpenAI s).items = s.items.map convertSchemaToOpenAI := by
    intro s
    obtain ⟨ty, props, itms, req, ens, desc, hanyOf, hother⟩ := s
    cases itms with
    | none => rfl
    | some i => rfl
  have hdesc : ∀ s : SchemaUnion, (convertSchemaToOpenAI s).description =
      (match s.description with
       | some d => if d = "" then none else some d
       | none => none) := by
    intro s
    obtain ⟨ty, props, itms, req, ens, desc, hanyOf, hother⟩ := s
    rfl
  have hty : ∀ s : SchemaUnion, (convertSchemaToOpenAI s).type = lowerString s.type := by
    intro s
    obtain ⟨ty, props, itms, req, ens, desc, hanyOf, hother⟩ := s
    rfl
  have hreq : ∀ s : SchemaUnion, (convertSchemaToOpenAI s).required = s.required := by
    intro s
    obtain ⟨ty, props, itms, req, ens, desc, hanyOf, hother⟩ := s
    rfl
  have hens : ∀ s : SchemaUnion, (convertSchemaToOpenAI s).enumVals = s.enumVals := by
    intro s
    obtain ⟨ty, props, itms, req, ens, desc, hanyOf, hother⟩ := s
    rfl
  refine ⟨hty, hreq, hens, hdesc, hprops, hitems, fun s hd hi he => ?_⟩
  refine ⟨?_, ?_, ?_, ?_, hreq s⟩
  · rw [hdesc s, hd]
  · rw [hitems s, hi]; rfl
  · rw [hens s, he]
  · rw [hprops s]
    cases s.properties <;> rfl

/-- Witness for C8's conditioned conjunct: a schema with only
`type`/`properties`/`required` populated converts to exactly those fields. -/
theorem c8_convert_schema_witness :
    ((SchemaUnion.mk "OBJECT" (some [("a", SchemaUnion.mk "STRING" none none none none none none [])])
        none (some ["a"]) none none none []).description = none ∧
     (SchemaUnion.mk "OBJECT" (some [("a", SchemaUnion.mk "STRING" none none none none none none [])])
        none (some ["a"]) none none none []).items = none ∧
     (SchemaUnion.mk "OBJECT" (some [("a", SchemaUnion.mk "STRING" none none none none none none [])])
        none (some ["a"]) none none none []).enumVals = none) ∧
    ((convertSchemaToOpenAI
        (SchemaUnion.mk "OBJECT" (some [("a", SchemaUnion.mk "STRING" none none none none none none [])])
          none (some ["a"]) none none none [])).description = none ∧
     (convertSchemaToOpenAI
        (SchemaUnion.mk "OBJECT" (some [("a", SchemaUnion.mk "STRING" none none none none none none [])])
          none (some ["a"]) none none none [])).items = none ∧
     (convertSchemaToOpenAI
        (SchemaUnion.mk "OBJECT" (some [("a", SchemaUnion.mk "STRING" none none none none none none [])])
          none (some ["a"]) none none none [])).enumVals = none ∧
     ((convertSchemaToOpenAI
        (SchemaUnion.mk "OBJECT" (some [("a", SchemaUnion.mk "STRING" none none none none none none [])])
          none (some ["a"]) none none none [])).properties).isSome =
       ((SchemaUnion.mk "OBJECT" (some [("a", SchemaUnion.mk "STRING" none none none none none none [])])
          none (some ["a"]) none none none []).properties).isSome ∧
     (convertSchemaToOpenAI
        (SchemaUnion.mk "OBJECT" (some [("a", SchemaUnion.mk "STRING" none none none none none none [])])
          none (some ["a"]) none none none [])).required =
       (SchemaUnion.mk "OBJECT" (some [("a", SchemaUnion.mk "STRING" none none none none none none [])])
          none (some ["a"]) none none none []).required) :=
  ⟨⟨rfl, rfl, rfl⟩,
   c8_convert_schema.2.2.2.2.2.2
     (SchemaUnion.mk "OBJECT" (some [("a", SchemaUnion.mk "STRING" none none none none none none [])])
        none (some ["a"]) none none none [])
     rfl rfl rfl⟩

/-! ## C6 — malformed tool-call arguments -/

/-- A backend completion whose message carries valid text alongside one tool
call with an argument payload that is not JSON. -/
def c6BadCompletion : ChatCompletion :=
  { choices :=
      [{ message :=
           { content := some "partial answer",
             tool_calls :=
               some [{ id := "call_abc",
                       function := { name := "lookup", arguments := "not json" } }] },
         finish_reason := some "tool_calls",
         index := 0 }],
    usage := none }

def c6BadFragmentChunk : StreamChunk :=
  ⟨[{ delta :=
        { content := none,
          tool_calls :=
            some [{ type := some "function",
                    function := some { name := some "lookup", arguments := some "not json" } }] },
      finish_reason := none }]⟩

def c6FinishChunk : StreamChunk :=
  ⟨[{ delta := { content := none, tool_calls := none }, finish_reason := some "stop" }]⟩

/-- C6: contrary to the claim (and in line with the spec's stated intent),
a tool invocation whose argument string fails to parse as JSON is *not*
surfaced as a per-call error with the rest of the response delivered: the
`JSON.parse` exception escapes the conversion, `generateContent` rewraps it,
and the entire response — including the valid message text — is lost.  The
same happens on the streaming path at the terminal event: the stream aborts
with a wrapped error instead of emitting the terminal snapshot. -/
theorem c6_malformed_arguments_crash :
    generateContentOfCompletion c6BadCompletion =
      .error "OpenAI API error: Unexpected token in JSON: not json" ∧
    generateContentStreamOfChunks [c6BadFragmentChunk, c6FinishChunk] =
      ([], some "OpenAI API error: Unexpected token in JSON: not json") :=
  ⟨rfl, rfl⟩

/-! ## C4 — system instruction first -/

/-- C4 (amended): whenever the request config carries a system instruction
whose *extracted text is non-empty* (a string instruction must be non-empty;
a `Content` instruction must contain at least one non-empty text part), the
message sequence handed to the backend starts with the system-instruction
message, regardless of the input contents. -/
theorem c4_system_instruction_first (rng : Nat → String) (contents : List Content)
    (si : SystemInstruction)
    (htruthy : systemInstructionTruthy si = true)
    (htext : systemInstructionText si ≠ "") :
    (buildRequestMessages rng contents (some si)).head? =
      some (ChatMessage.plain "system" (systemInstructionText si)) := by
  simp only [buildRequestMessages, htruthy, if_true, if_pos htext, List.head?_cons]

/-- Witness for C4 at a concrete request. -/
theorem c4_system_instruction_first_witness :
    systemInstructionTruthy (SystemInstruction.str "be brief") = true ∧
    systemInstructionText (SystemInstruction.str "be brief") ≠ "" ∧
    (buildRequestMessages exampleDraws
        [{ role := "system", parts := [Part.textPart "sys turn"] },
         { role := "user", parts := [Part.textPart "hello"] }]
        (some (SystemInstruction.str "be brief"))).head? =
      some (ChatMessage.plain "system" (systemInstructionText (SystemInstruction.str "be brief"))) :=
  ⟨rfl, by decide,
   c4_system_instruction_first exampleDraws
     [{ role := "system", parts := [Part.textPart "sys turn"] },
      { role := "user", parts := [Part.textPart "hello"] }]
     (SystemInstruction.str "be brief") rfl (by decide)⟩

/-- C4 counterexample: the config carries a system instruction — a `Content`
with no text parts — yet the produced sequence starts with (and consists only
of) the converted user turn: the truthiness/emptiness guards skip the
`unshift`, so no system message is prepended at all. -/
theorem c4_counterexample :
    buildRequestMessages exampleDraws
        [{ role := "user", parts := [Part.textPart "hello"] }]
        (some (SystemInstruction.content { role := "system", parts := [] })) =
      [ChatMessage.plain "user" "hello"] :=
  rfl

/-! ## C1 — non-streaming synthesis -/

/-- Success of the tool-call loop is pointwise success: each invocation's
arguments parse, and each yields exactly one function-call part carrying the
invocation's name and parsed arguments, in order. -/
lemma completionCallParts_ok_forall2 :
    ∀ (l : List CompletionToolCall) (out : List Part),
      completionCallParts l = .ok out →
      List.Forall₂ (fun tc p => ∃ v, parseToolArguments tc.function.arguments = Except.ok v ∧
          p = { functionCall := some { name := some tc.function.name, args := v } }) l out := by
  intro l
  induction l with
  | nil =>
      intro out h
      simp only [completionCallParts] at h
      cases h
      exact List.Forall₂.nil
  | cons tc rest ih =>
      intro out h
      simp only [completionCallParts, Bind.bind, Except.bind, Pure.pure, Except.pure] at h
      cases hp : parseToolArguments tc.function.arguments with
      | error e => rw [hp] at h; cases h
      | ok v =>
          rw [hp] at h
          cases hr : completionCallParts rest with
          | error e => rw [hr] at h; cases h
          | ok ps =>
              rw [hr] at h
              cases h
              exact List.Forall₂.cons ⟨v, hp, rfl⟩ (ih ps hr)

/-- Shape of a successful non-streaming synthesis with at least one choice. -/
lemma convert_ok_shape (completion : ChatCompletion) (choice : CompletionChoice)
    (r : GenerateContentResponse)
    (hchoice : completion.choices.head? = some choice)
    (hok : convertOpenAIResponseToGenAI completion = .ok r) :
    ∃ callParts, completionCallParts (choice.message.tool_calls.getD []) = .ok callParts ∧
      r = { candidates :=
              [{ content :=
                   { role := "model",
                     parts := (if jsTruthy choice.message.content then
                         [Part.textPart (choice.message.content.getD "")] else []) ++ callParts },
                 finishReason := truthyOpt choice.finish_reason,
                 index := choice.index }],
            usageMetadata := some
              { promptTokenCount := completion.usage.map (fun u => u.prompt_tokens)
                candidatesTokenCount := completion.usage.map (fun u => u.completion_tokens)
                totalTokenCount := completion.usage.map (fun u => u.total_tokens) } } := by
  unfold convertOpenAIResponseToGenAI at hok
  rw [hchoice] at hok
  simp only [Bind.bind, Except.bind, Pure.pure, Except.pure] at hok
  cases hcall : completionCallParts (choice.message.tool_calls.getD []) with
  | error e => rw [hcall] at hok; cases hok
  | ok ps =>
      rw [hcall] at hok
      cases hok
      exact ⟨ps, rfl, rfl⟩

/-- C1 (amended): whenever the synthesis returns at all (it throws when a tool
invocation's argument string fails to parse as JSON, see C6), the response has
exactly one candidate, built from the first choice only: parts are one text
part if the message content is non-empty followed by one function-call part
per tool invocation (in order, with parsed arguments); the content role is
`model`; the finish reason is the backend's, with an absent *or empty* finish
reason mapped to undefined; the candidate's index is *the first choice's
index* (0 whenever the backend numbers its choices from 0, but copied, not
constant); and usage metadata is attached with whatever token counts the
backend supplied. -/
theorem c1_first_choice_synthesis (completion : ChatCompletion)
    (choice : CompletionChoice) (r : GenerateContentResponse)
    (hchoice : completion.choices.head? = some choice)
    (hok : convertOpenAIResponseToGenAI completion = .ok r) :
    ∃ callParts : List Part,
      r.candidates =
        [{ content :=
             { role := "model",
               parts := (if jsTruthy choice.message.content then
                   [Part.textPart (choice.message.content.getD "")] else []) ++ callParts },
           finishReason := truthyOpt choice.finish_reason,
           index := choice.index }] ∧
      List.Forall₂ (fun tc p => ∃ v, parseToolArguments tc.function.arguments = Except.ok v ∧
          p = { functionCall := some { name := some tc.function.name, args := v } })
        (choice.message.tool_calls.getD []) callParts ∧
      r.usageMetadata = some
        { promptTokenCount := completion.usage.map (fun u => u.prompt_tokens)
          candidatesTokenCount := completion.usage.map (fun u => u.completion_tokens)
          totalTokenCount := completion.usage.map (fun u => u.total_tokens) } := by
  obtain ⟨ps, hps, hr⟩ := convert_ok_shape completion choice r hchoice hok
  subst hr
  exact ⟨ps, rfl, completionCallParts_ok_forall2 _ _ hps, rfl⟩

def c1Completion : ChatCompletion :=
  { choices :=
      [{ message :=
           { content := some "hello",
             tool_calls :=
               some [{ id := "srv1",
                       function := { name := "lookup", arguments := "\x7b\"q\":\"x\"\x7d" } }] },
         finish_reason := some "stop",
         index := 0 }],
    usage := some { prompt_tokens := 7, completion_tokens := 5, total_tokens := 12 } }

def c1Choice : CompletionChoice :=
  { message :=
      { content := some "hello",
        tool_calls :=
          some [{ id := "srv1",
                  function := { name := "lookup", arguments := "\x7b\"q\":\"x\"\x7d" } }] },
    finish_reason := some "stop",
    index := 0 }

def c1Result : GenerateContentResponse :=
  { candidates :=
      [{ content :=
           { role := "model",
             parts := [Part.textPart "hello",
                       { functionCall := some { name := some "lookup",
                                                args := JsValue.obj [("q", JsValue.str "x")] } }] },
         finishReason := some "stop",
         index := 0 }],
    usageMetadata := some { promptTokenCount := some 7, candidatesTokenCount := some 5,
                            totalTokenCount := some 12 } }

/-- Witness for C1 at a concrete completion with text, one parsing tool call,
a finish reason and usage counts. -/
theorem c1_first_choice_synthesis_witness :
    c1Completion.choices.head? = some c1Choice ∧
    convertOpenAIResponseToGenAI c1Completion = .ok c1Result ∧
    (∃ callParts : List Part,
      c1Result.candidates =
        [{ content :=
             { role := "model",
               parts := (if jsTruthy c1Choice.message.content then
                   [Part.textPart (c1Choice.message.content.getD "")] else []) ++ callParts },
           finishReason := truthyOpt c1Choice.finish_reason,
           index := c1Choice.index }] ∧
      List.Forall₂ (fun tc p => ∃ v, parseToolArguments tc.function.arguments = Except.ok v ∧
          p = { functionCall := some { name := some tc.function.name, args := v } })
        (c1Choice.message.tool_calls.getD []) callParts ∧
      c1Result.usageMetadata = some
        { promptTokenCount := c1Completion.usage.map (fun u => u.prompt_tokens)
          candidatesTokenCount := c1Completion.usage.map (fun u => u.completion_tokens)
          totalTokenCount := c1Completion.usage.map (fun u => u.total_tokens) }) :=
  ⟨rfl, rfl, c1_first_choice_synthesis c1Completion c1Choice c1Result rfl rfl⟩

/-- A completion whose (single, first) choice carries index 1 and an empty
finish-reason string. -/
def c1IndexCompletion : ChatCompletion :=
  { choices := [{ message := { content := some "hi", tool_calls := none },
                  finish_reason := some "", index := 1 }],
    usage := none }

/-- A completion whose tool call carries arguments that are not JSON. -/
def c1BadArgsCompletion : ChatCompletion :=
  { choices :=
      [{ message :=
           { content := some "hi",
             tool_calls := some [{ id := "x", function := { name := "f", arguments := "oops" } }] },
         finish_reason := some "stop",
         index := 0 }],
    usage := none }

/-- C1 counterexample.  First input: the backend's first choice has index 1
and a present (empty) finish reason, yet the candidate's index is 1 — not 0 as
claimed — and its finish reason is `undefined` — not the backend's value.
Second input: a tool invocation whose arguments do not parse makes the
synthesis throw instead of returning a candidate at all. -/
theorem c1_counterexample :
    convertOpenAIResponseToGenAI c1IndexCompletion =
      .ok { candidates := [{ content := { role := "model", parts := [Part.textPart "hi"] },
                             finishReason := none, index := 1 }],
            usageMetadata := some { promptTokenCount := none, candidatesTokenCount := none,
                                    totalTokenCount := none } } ∧
    (1 : Nat) ≠ 0 ∧
    c1IndexCompletion.choices.map (fun ch => ch.finish_reason) = [some ""] ∧
    convertOpenAIResponseToGenAI c1BadArgsCompletion =
      .error "Unexpected token in JSON: oops" :=
  ⟨rfl, by decide, rfl, rfl⟩

/-! ## C3 — tool-turn message conversion -/

/-- The generated call identifiers carried by one backend message. -/
def messageCallIds : ChatMessage → List String
  | .assistantToolCalls _ tcs => tcs.map (fun tc => tc.id)
  | .toolResult callId _ => [callId]
  | .plain _ _ => []

/-- All generated call identifiers of a converted request, in order. -/
def requestCallIds (msgs : List ChatMessage) : List String :=
  msgs.flatMap messageCallIds

lemma string_eq_empty_of_length_eq_zero : ∀ (s : String), s.length = 0 → s = "" := by
  intro s h
  cases s with
  | mk l =>
      cases l with
      | nil => rfl
      | cons c cs => simp [String.length] at h

lemma string_append_left_cancel (s a b : String) (h : s ++ a = s ++ b) : a = b := by
  have hd : s.data ++ a.data = s.data ++ b.data := congrArg String.data h
  have h2 : a.data = b.data := List.append_cancel_left hd
  cases a
  cases b
  exact congrArg String.mk h2

/-- When the underlying draws are pairwise distinct, so are the generated
identifiers. -/
lemma callIdOf_injective (rng : Nat → String) (hrng : Function.Injective rng) :
    Function.Injective (callIdOf rng) := by
  intro m n h
  exact hrng (string_append_left_cancel "call_" (rng m) (rng n) h)

lemma exampleDraws_injective : Function.Injective exampleDraws := by
  intro m n h
  have h2 := congrArg String.length h
  have hm : (exampleDraws m).length = m := by
    show (List.replicate m 'x').length = m
    simp
  have hn : (exampleDraws n).length = n := by
    show (List.replicate n 'x').length = n
    simp
  rw [hm, hn] at h2
  exact h2

lemma range_map_callIdOf_nodup (rng : Nat → String) (hrng : Function.Injective rng)
    (base n : Nat) :
    ((List.range n).map (fun i => callIdOf rng (base + i))).Nodup := by
  refine List.Nodup.map ?_ (List.nodup_range n)
  intro a b hab
  have := callIdOf_injective rng hrng hab
  omega

lemma joinSep_cons_ne_empty (sep x : String) (rest : List String) (hx : x ≠ "") :
    joinSep sep (x :: rest) ≠ "" := by
  have hxlen : 0 < x.length := by
    rcases Nat.eq_zero_or_pos x.length with h0 | h
    · exact absurd (string_eq_empty_of_length_eq_zero x h0) hx
    · exact h
  cases rest with
  | nil => simpa [joinSep] using hx
  | cons y ys =>
      simp only [joinSep]
      intro h
      have hlen := congrArg String.length h
      rw [String.length_append, String.length_append] at hlen
      have h0 : ("" : String).length = 0 := rfl
      rw [h0] at hlen
      omega

lemma jsTruthy_getD_ne_empty (o : Option String) (h : jsTruthy o = true) : o.getD "" ≠ "" := by
  cases o with
  | none => simp [jsTruthy] at h
  | some t =>
      simp only [jsTruthy, ne_eq, decide_eq_true_eq] at h
      simpa using h

/-- The assistant-message body: the source's `joined || null` coincides with
the claim's "joined text, or the no-content marker when there are no text
parts", because every text part is non-empty. -/
lemma toolTurnBody_eq (tps : List Part) (h : ∀ p ∈ tps, jsTruthy p.text = true) :
    (if joinSep "\n" (tps.map (fun p => p.text.getD "")) = "" then none
     else some (joinSep "\n" (tps.map (fun p => p.text.getD "")))) =
    (if tps.isEmpty then none
     else some (joinSep "\n" (tps.map (fun p => p.text.getD "")))) := by
  cases tps with
  | nil => simp [joinSep]
  | cons p rest =>
      have hp := h p (List.mem_cons_self _ _)
      have hne := jsTruthy_getD_ne_empty p.text hp
      have hj := joinSep_cons_ne_empty "\n" (p.text.getD "")
        (rest.map (fun q => q.text.getD "")) hne
      simp only [List.map_cons, List.isEmpty_cons]
      rw [if_neg hj]
      simp

lemma hasToolParts_of_any_fc (c : Content)
    (hfc : c.parts.any (fun p => p.functionCall.isSome) = true) :
    hasToolParts c = true := by
  unfold hasToolParts
  rw [List.any_eq_true] at hfc ⊢
  obtain ⟨p, hp, hps⟩ := hfc
  exact ⟨p, hp, by simp [hps]⟩

lemma partFunctionCalls_length_pos (c : Content)
    (hfc : c.parts.any (fun p => p.functionCall.isSome) = true) :
    0 < (partFunctionCalls c.parts).length := by
  rw [List.any_eq_true] at hfc
  obtain ⟨p, hp, hps⟩ := hfc
  obtain ⟨fc, hfc'⟩ := Option.isSome_iff_exists.mp hps
  have hmem : fc ∈ partFunctionCalls c.parts :=
    List.mem_filterMap.mpr ⟨p, hp, hfc'⟩
  exact List.length_pos.mpr (List.ne_nil_of_mem hmem)

/-- Shape of the conversion of one tool turn containing at least one
function-call part. -/
lemma convertContent_toolturn (rng : Nat → String) (counter : Nat) (c : Content)
    (hfc : c.parts.any (fun p => p.functionCall.isSome) = true) :
    convertContent rng counter c =
      (ChatMessage.assistantToolCalls
         (if (contentTextParts c.parts).isEmpty then none
          else some (joinSep "\n" ((contentTextParts c.parts).map (fun p => p.text.getD ""))))
         ((partFunctionCalls c.parts).enum.map (fun e =>
            { id := callIdOf rng (counter + e.1)
              function := { name := e.2.name, arguments := jsonStringify e.2.args } }))
       :: (partFunctionResponses c.parts).enum.map (fun e =>
            ChatMessage.toolResult
              (callIdOf rng (counter + (partFunctionCalls c.parts).length + e.1))
              (jsonStringify e.2.response)),
       counter + (partFunctionCalls c.parts).length + (partFunctionResponses c.parts).length) := by
  have htool := hasToolParts_of_any_fc c hfc
  have hlen := partFunctionCalls_length_pos c hfc
  have hbody := toolTurnBody_eq (contentTextParts c.parts)
    (fun p hp => (List.mem_filter.mp hp).2)
  simp only [convertContent, htool, if_true, if_pos hlen, hbody, List.singleton_append]

lemma enum_map_comp_fst {α β : Type} (l : List α) (f : Nat → β) :
    l.enum.map (fun e => f e.1) = (List.range l.length).map f := by
  rw [← List.enum_map_fst l, List.map_map]
  rfl

lemma flatMap_map_toolResult {α : Type} (l : List α) (f g : α → String) :
    (l.map (fun a => ChatMessage.toolResult (f a) (g a))).flatMap messageCallIds = l.map f := by
  induction l with
  | nil => rfl
  | cons a t ih => simp [messageCallIds, ih]

lemma callIdOf_range_append (rng : Nat → String) (base m k : Nat) :
    (List.range m).map (fun i => callIdOf rng (base + i)) ++
      (List.range k).map (fun i => callIdOf rng (base + m + i)) =
    (List.range (m + k)).map (fun i => callIdOf rng (base + i)) := by
  rw [List.range_add, List.map_append, List.map_map]
  congr 1
  refine List.map_eq_map_iff.mpr (fun i _ => ?_)
  simp [Function.comp, Nat.add_assoc]

lemma partFunctionCalls_eq_nil (c : Content)
    (h : c.parts.any (fun p => p.functionCall.isSome) = false) :
    partFunctionCalls c.parts = [] := by
  unfold partFunctionCalls
  rw [List.filterMap_eq_nil_iff]
  intro p hp
  rw [List.any_eq_false] at h
  have h2 := h p hp
  cases hfc : p.functionCall with
  | none => rfl
  | some fc => rw [hfc] at h2; simp at h2

/-- Conversion of a tool turn with function-response parts only. -/
lemma convertContent_respOnly (rng : Nat → String) (counter : Nat) (c : Content)
    (htool : hasToolParts c = true)
    (hfcnil : partFunctionCalls c.parts = []) :
    convertContent rng counter c =
      ((partFunctionResponses c.parts).enum.map (fun e =>
         ChatMessage.toolResult (callIdOf rng (counter + e.1)) (jsonStringify e.2.response)),
       counter + (partFunctionResponses c.parts).length) := by
  simp [convertContent, htool, hfcnil]

/-- The identifiers generated while converting one turn are built, in order,
from the contiguous draw range `[counter, counter + n)`, and the counter
advances by `n`. -/
lemma convertContent_ids (rng : Nat → String) (counter : Nat) (c : Content) :
    ∃ n, requestCallIds (convertContent rng counter c).1 =
        (List.range n).map (fun i => callIdOf rng (counter + i)) ∧
      (convertContent rng counter c).2 = counter + n := by
  by_cases hany : c.parts.any (fun p => p.functionCall.isSome) = true
  · refine ⟨(partFunctionCalls c.parts).length + (partFunctionResponses c.parts).length,
      ?_, ?_⟩
    · rw [convertContent_toolturn rng counter c hany]
      simp only [requestCallIds, List.flatMap_cons, messageCallIds, List.map_map]
      rw [show ((partFunctionCalls c.parts).enum.map
            ((fun tc => tc.id) ∘ fun e =>
              ({ id := callIdOf rng (counter + e.1),
                 function := { name := e.2.name, arguments := jsonStringify e.2.args } } :
                MessageToolCall))) =
          (partFunctionCalls c.parts).enum.map (fun e => callIdOf rng (counter + e.1)) from rfl]
      rw [enum_map_comp_fst (partFunctionCalls c.parts) (fun i => callIdOf rng (counter + i))]
      rw [flatMap_map_toolResult ((partFunctionResponses c.parts).enum)
        (fun e => callIdOf rng (counter + (partFunctionCalls c.parts).length + e.1))
        (fun e => jsonStringify e.2.response)]
      rw [enum_map_comp_fst (partFunctionResponses c.parts)
        (fun i => callIdOf rng (counter + (partFunctionCalls c.parts).length + i))]
      exact callIdOf_range_append rng counter (partFunctionCalls c.parts).length
        (partFunctionResponses c.parts).length
    · rw [convertContent_toolturn rng counter c hany]
      omega
  · have hfcnil : partFunctionCalls c.parts = [] :=
      partFunctionCalls_eq_nil c (by simpa using hany)
    by_cases htool : hasToolParts c = true
    · refine ⟨(partFunctionResponses c.parts).length, ?_, ?_⟩
      · rw [convertContent_respOnly rng counter c htool hfcnil]
        simp only [requestCallIds]
        rw [flatMap_map_toolResult ((partFunctionResponses c.parts).enum)
          (fun e => callIdOf rng (counter + e.1))
          (fun e => jsonStringify e.2.response)]
        exact enum_map_comp_fst (partFunctionResponses c.parts)
          (fun i => callIdOf rng (counter + i))
      · rw [convertContent_respOnly rng counter c htool hfcnil]
    · refine ⟨0, ?_, ?_⟩
      · simp [convertContent, htool, requestCallIds, messageCallIds]
      · simp [convertContent, htool]

lemma requestCallIds_append (a b : List ChatMessage) :
    requestCallIds (a ++ b) = requestCallIds a ++ requestCallIds b :=
  List.flatMap_append a b messageCallIds

/-- All identifiers generated while converting a request are built, in
order, from a contiguous draw range. -/
lemma convertContentsGo_ids (rng : Nat → String) :
    ∀ (contents : List Content) (counter : Nat),
      ∃ n, requestCallIds (convertContentsGo rng contents counter) =
        (List.range n).map (fun i => callIdOf rng (counter + i)) := by
  intro contents
  induction contents with
  | nil => intro counter; exact ⟨0, rfl⟩
  | cons c rest ih =>
      intro counter
      obtain ⟨m, hm, hnext⟩ := convertContent_ids rng counter c
      obtain ⟨k, hk⟩ := ih (convertContent rng counter c).2
      refine ⟨m + k, ?_⟩
      rw [show convertContentsGo rng (c :: rest) counter =
          (convertContent rng counter c).1 ++
            convertContentsGo rng rest (convertContent rng counter c).2
          from rfl]
      rw [requestCallIds_append, hm, hk, hnext]
      exact callIdOf_range_append rng counter m k

/-- The generated call identifiers of one converted request are pairwise
distinct *provided* the underlying random draws are pairwise distinct — the
code itself supplies no such guarantee (see the C3 counterexample). -/
lemma requestCallIds_nodup (rng : Nat → String) (hrng : Function.Injective rng)
    (contents : List Content) :
    (requestCallIds (convertContentsToMessages rng contents)).Nodup := by
  obtain ⟨n, hn⟩ := convertContentsGo_ids rng contents 0
  unfold convertContentsToMessages
  rw [hn]
  exact range_map_callIdOf_nodup rng hrng 0 n

/-- A turn with two function-call parts: converting it draws two
identifiers. -/
def c3CollidingTurn : Content :=
  { role := "model",
    parts := [{ functionCall := some { name := some "alpha", args := JsValue.obj [] } },
              { functionCall := some { name := some "beta", args := JsValue.obj [] } }] }

/-- C3 counterexample: the identifiers are *not* guaranteed unique within the
request.  Identifiers come from independent `Math.random` draws, so two draws
returning the same string — here both returning `"r4nd0m"` — is a possible
execution, and then the two invocation records of a single request carry the
same identifier `call_r4nd0m`: the claim's "freshly generated identifier
unique within the request" fails. -/
theorem c3_counterexample :
    requestCallIds (convertContentsToMessages (fun _ => "r4nd0m") [c3CollidingTurn]) =
      ["call_r4nd0m", "call_r4nd0m"] ∧
    ¬ (requestCallIds (convertContentsToMessages (fun _ => "r4nd0m") [c3CollidingTurn])).Nodup :=
  ⟨rfl, by decide⟩

/-- C3 (amended): for every Content turn with at least one function-call part,
the converter emits one assistant message first — its body the newline-join of
the turn's (truthy) text parts, or the explicit `null` no-content marker when
there are none — carrying exactly one tool-invocation record per function-call
part, in order, each holding an identifier freshly drawn from the random
generator, the function name and the JSON-serialized arguments; followed by
one separate tool-result message per function-response part.  The identifiers
are unique within the message and across the whole request *whenever the
underlying random draws are pairwise distinct* — which the source's
`Math.random` draws make probable but do not guarantee (see the
counterexample). -/
theorem c3_tool_turn_messages :
    (∀ (rng : Nat → String) (counter : Nat) (c : Content),
      c.parts.any (fun p => p.functionCall.isSome) = true →
      (convertContent rng counter c).1 =
        ChatMessage.assistantToolCalls
          (if (contentTextParts c.parts).isEmpty then none
           else some (joinSep "\n" ((contentTextParts c.parts).map (fun p => p.text.getD ""))))
          ((partFunctionCalls c.parts).enum.map (fun e =>
             { id := callIdOf rng (counter + e.1)
               function := { name := e.2.name, arguments := jsonStringify e.2.args } }))
        :: (partFunctionResponses c.parts).enum.map (fun e =>
             ChatMessage.toolResult
               (callIdOf rng (counter + (partFunctionCalls c.parts).length + e.1))
               (jsonStringify e.2.response))) ∧
    (∀ rng : Nat → String, Function.Injective rng →
      (∀ (counter : Nat) (c : Content),
        ((partFunctionCalls c.parts).enum.map (fun e => callIdOf rng (counter + e.1))).Nodup) ∧
      (∀ contents : List Content,
        (requestCallIds (convertContentsToMessages rng contents)).Nodup)) := by
  refine ⟨fun rng counter c hfc =>
      congrArg Prod.fst (convertContent_toolturn rng counter c hfc),
    fun rng hrng => ⟨fun counter c => ?_, requestCallIds_nodup rng hrng⟩⟩
  rw [enum_map_comp_fst (partFunctionCalls c.parts) (fun i => callIdOf rng (counter + i))]
  exact range_map_callIdOf_nodup rng hrng counter (partFunctionCalls c.parts).length

/-- The claim's tool-turn scenario: one function-call part
(`name="lookup"`, `args={"q":"x"}`) and no text. -/
def c3Turn : Content :=
  { role := "model",
    parts := [{ functionCall := some { name := some "lookup",
                                       args := JsValue.obj [("q", JsValue.str "x")] } }] }

/-- Witness for C3 at the claim's scenario turn, under a draw sequence with
pairwise-distinct draws: the produced assistant message has the `null` body
marker (no text body) and exactly one invocation record with function name
`lookup` and arguments serialized as `\x7b"q":"x"\x7d`, and the request's
identifiers are pairwise distinct. -/
theorem c3_tool_turn_messages_witness :
    (c3Turn.parts.any (fun p => p.functionCall.isSome) = true) ∧
    ((convertContent exampleDraws 0 c3Turn).1 =
       ChatMessage.assistantToolCalls
         (if (contentTextParts c3Turn.parts).isEmpty then none
          else some (joinSep "\n" ((contentTextParts c3Turn.parts).map (fun p => p.text.getD ""))))
         ((partFunctionCalls c3Turn.parts).enum.map (fun e =>
            { id := callIdOf exampleDraws (0 + e.1)
              function := { name := e.2.name, arguments := jsonStringify e.2.args } }))
       :: (partFunctionResponses c3Turn.parts).enum.map (fun e =>
            ChatMessage.toolResult
              (callIdOf exampleDraws (0 + (partFunctionCalls c3Turn.parts).length + e.1))
              (jsonStringify e.2.response))) ∧
    Function.Injective exampleDraws ∧
    (requestCallIds (convertContentsToMessages exampleDraws [c3Turn])).Nodup ∧
    (convertContent exampleDraws 0 c3Turn).1 =
      [ChatMessage.assistantToolCalls none
        [{ id := "call_",
           function := { name := some "lookup", arguments := "\x7b\"q\":\"x\"\x7d" } }]] :=
  ⟨rfl, c3_tool_turn_messages.1 exampleDraws 0 c3Turn rfl, exampleDraws_injective,
   (c3_tool_turn_messages.2 exampleDraws exampleDraws_injective).2 [c3Turn], rfl⟩

/-! ## Streaming machinery shared by C5, C9 and C10 -/

/-- The (truthy) text delta carried by a chunk's first choice, if any. -/
def chunkTruthyContent (c : StreamChunk) : Option String :=
  match c.choices.head? with
  | some ch =>
      match ch.delta.content with
      | some s => if s = "" then none else some s
      | none => none
  | none => none

/-- Whether a chunk's first choice carries a truthy finish reason. -/
def chunkHasFinish (c : StreamChunk) : Bool :=
  match c.choices.head? with
  | some ch => jsTruthy ch.finish_reason
  | none => false

/-- The delta tool-call fragments carried by a chunk's first choice. -/
def chunkFragments (c : StreamChunk) : List DeltaToolCall :=
  match c.choices.head? with
  | some ch => ch.delta.tool_calls.getD []
  | none => []

/-- Text accumulated over a chunk sequence, starting from `acc`. -/
def accOver (chunks : List StreamChunk) (acc : String) : String :=
  chunks.foldl (fun a c => a ++ (chunkTruthyContent c).getD "") acc

/-- Tool-call fragments buffered over a chunk sequence, starting from `buf`. -/
def bufOver (chunks : List StreamChunk) (buf : List DeltaToolCall) : List DeltaToolCall :=
  chunks.foldl (fun b c => b ++ chunkFragments c) buf

/-- A pre-terminal snapshot: one text part holding the accumulated text,
finish reason unset, index 0. -/
def deltaSnapshot (s : String) : GenerateContentResponse :=
  { candidates := [{ content := { role := "model", parts := [Part.textPart s] },
                     finishReason := none, index := 0 }],
    usageMetadata := none }

/-- The claim's view of the pre-terminal snapshot sequence: one snapshot per
event carrying a truthy text delta, each holding the entire text accumulated
so far. -/
def deltaSnaps : List StreamChunk → String → List GenerateContentResponse
  | [], _ => []
  | c :: rest, acc =>
      match chunkTruthyContent c with
      | some s => deltaSnapshot (acc ++ s) :: deltaSnaps rest (acc ++ s)
      | none => deltaSnaps rest acc

lemma append_ne_empty_of_right (acc s : String) (hs : s ≠ "") : acc ++ s ≠ "" := by
  intro h
  have hlen := congrArg String.length h
  rw [String.length_append] at hlen
  have h0 : ("" : String).length = 0 := rfl
  rw [h0] at hlen
  exact hs (string_eq_empty_of_length_eq_zero s (by omega))

lemma createStreamResponse_delta (s : String) (hs : s ≠ "") :
    createStreamResponse s false none = .ok (deltaSnapshot s) := by
  simp [createStreamResponse, deltaSnapshot, hs, Bind.bind, Except.bind, Pure.pure, Except.pure]

/-- One non-terminal step of the stream loop. -/
lemma runStream_cons_no_finish (c : StreamChunk) (rest' : List StreamChunk)
    (acc : String) (buf : List DeltaToolCall)
    (hc : chunkHasFinish c = false) :
    runStream (c :: rest') acc buf =
      (((chunkTruthyContent c).elim [] (fun s => [deltaSnapshot (acc ++ s)])) ++
         (runStream rest' (acc ++ (chunkTruthyContent c).getD "")
           (buf ++ chunkFragments c)).1,
       (runStream rest' (acc ++ (chunkTruthyContent c).getD "")
         (buf ++ chunkFragments c)).2) := by
  cases hhead : c.choices.head? with
  | none =>
      have h1 : chunkTruthyContent c = none := by simp [chunkTruthyContent, hhead]
      have h2 : chunkFragments c = [] := by simp [chunkFragments, hhead]
      simp only [runStream, hhead, h1, h2, Option.elim, Option.getD,
        List.append_nil, List.nil_append, String.append_empty]
  | some ch =>
      have hfin : jsTruthy ch.finish_reason = false := by
        unfold chunkHasFinish at hc
        rw [hhead] at hc
        exact hc
      have hbuf : (match ch.delta.tool_calls with
          | some tcs => buf ++ tcs
          | none => buf) = buf ++ chunkFragments c := by
        cases htc : ch.delta.tool_calls with
        | some tcs => simp [chunkFragments, hhead, htc]
        | none => simp [chunkFragments, hhead, htc]
      cases hcont : ch.delta.content with
      | none =>
          have h1 : chunkTruthyContent c = none := by simp [chunkTruthyContent, hhead, hcont]
          simp only [runStream, hhead, hcont, hbuf, hfin, h1]
          simp [jsTruthy, String.append_empty]
      | some s =>
          by_cases hs : s = ""
          · have h1 : chunkTruthyContent c = none := by
              simp [chunkTruthyContent, hhead, hcont, hs]
            subst hs
            simp only [runStream, hhead, hcont, hbuf, hfin, h1]
            simp [jsTruthy, String.append_empty]
          · have h1 : chunkTruthyContent c = some s := by
              simp [chunkTruthyContent, hhead, hcont, hs]
            have hne : acc ++ s ≠ "" := append_ne_empty_of_right acc s hs
            simp only [runStream, hhead, hcont, hbuf, hfin, h1]
            simp [jsTruthy, hs, createStreamResponse_delta (acc ++ s) hne]

/-- The terminal step of the stream loop: the finish-bearing chunk first
yields its own text snapshot (if it carries a truthy delta), then either the
terminal snapshot or — when a buffered fragment's arguments fail to parse —
the wrapped error, and the loop breaks. -/
lemma runStream_cons_finish (t : StreamChunk) (post : List StreamChunk)
    (acc : String) (buf : List DeltaToolCall)
    (ht : chunkHasFinish t = true) :
    runStream (t :: post) acc buf =
      ((chunkTruthyContent t).elim [] (fun s => [deltaSnapshot (acc ++ s)]) ++
         (match createStreamResponse (acc ++ (chunkTruthyContent t).getD "") true
             (some (buf ++ chunkFragments t)) with
          | .ok r => [r]
          | .error _ => []),
       match createStreamResponse (acc ++ (chunkTruthyContent t).getD "") true
           (some (buf ++ chunkFragments t)) with
       | .ok _ => none
       | .error e => some ("OpenAI API error: " ++ e)) := by
  cases hhead : t.choices.head? with
  | none =>
      exfalso
      unfold chunkHasFinish at ht
      rw [hhead] at ht
      cases ht
  | some ch =>
      have hfin : jsTruthy ch.finish_reason = true := by
        unfold chunkHasFinish at ht
        rw [hhead] at ht
        exact ht
      have hbuf : (match ch.delta.tool_calls with
          | some tcs => buf ++ tcs
          | none => buf) = buf ++ chunkFragments t := by
        cases htc : ch.delta.tool_calls with
        | some tcs => simp [chunkFragments, hhead, htc]
        | none => simp [chunkFragments, hhead, htc]
      cases hcont : ch.delta.content with
      | none =>
          have h1 : chunkTruthyContent t = none := by simp [chunkTruthyContent, hhead, hcont]
          simp only [runStream, hhead, hcont, hbuf, hfin, h1]
          cases hcr : createStreamResponse (acc ++ "") true (some (buf ++ chunkFragments t)) with
          | ok r =>
              simp only [String.append_empty] at hcr
              simp [jsTruthy, String.append_empty, hcr]
          | error e =>
              simp only [String.append_empty] at hcr
              simp [jsTruthy, String.append_empty, hcr]
      | some s =>
          by_cases hs : s = ""
          · have h1 : chunkTruthyContent t = none := by
              simp [chunkTruthyContent, hhead, hcont, hs]
            subst hs
            simp only [runStream, hhead, hcont, hbuf, hfin, h1]
            cases hcr : createStreamResponse (acc ++ "") true (some (buf ++ chunkFragments t)) with
            | ok r =>
                simp only [String.append_empty] at hcr
                simp [jsTruthy, String.append_empty, hcr]
            | error e =>
                simp only [String.append_empty] at hcr
                simp [jsTruthy, String.append_empty, hcr]
          · have h1 : chunkTruthyContent t = some s := by
              simp [chunkTruthyContent, hhead, hcont, hs]
            have hne : acc ++ s ≠ "" := append_ne_empty_of_right acc s hs
            simp only [runStream, hhead, hcont, hbuf, hfin, h1]
            cases hcr : createStreamResponse (acc ++ s) true (some (buf ++ chunkFragments t)) with
            | ok r =>
                simp [jsTruthy, hs, createStreamResponse_delta (acc ++ s) hne, hcr]
            | error e =>
                simp [jsTruthy, hs, createStreamResponse_delta (acc ++ s) hne, hcr]

/-- `deltaSnaps` distributes over append, threading the accumulated text. -/
lemma deltaSnaps_append :
    ∀ (l1 l2 : List StreamChunk) (acc : String),
      deltaSnaps (l1 ++ l2) acc = deltaSnaps l1 acc ++ deltaSnaps l2 (accOver l1 acc) := by
  intro l1
  induction l1 with
  | nil => intro l2 acc; simp [deltaSnaps, accOver]
  | cons c rest ih =>
      intro l2 acc
      cases h1 : chunkTruthyContent c with
      | none =>
          simp only [List.cons_append, deltaSnaps, h1, List.append_eq]
          rw [ih]
          have : accOver (c :: rest) acc = accOver rest acc := by
            simp [accOver, h1, String.append_empty]
          rw [this]
      | some s =>
          simp only [List.cons_append, deltaSnaps, h1, List.append_eq]
          rw [ih]
          have : accOver (c :: rest) acc = accOver rest (acc ++ s) := by
            simp [accOver, h1]
          rw [this]

lemma accOver_append (l1 l2 : List StreamChunk) (acc : String) :
    accOver (l1 ++ l2) acc = accOver l2 (accOver l1 acc) := by
  simp [accOver, List.foldl_append]

lemma bufOver_append (l1 l2 : List StreamChunk) (buf : List DeltaToolCall) :
    bufOver (l1 ++ l2) buf = bufOver l2 (bufOver l1 buf) := by
  simp [bufOver, List.foldl_append]

lemma chunkTruthyContent_ne_empty (c : StreamChunk) (s : String)
    (h : chunkTruthyContent c = some s) : s ≠ "" := by
  unfold chunkTruthyContent at h
  cases hhead : c.choices.head? with
  | none => simp only [hhead] at h; cases h
  | some ch =>
      simp only [hhead] at h
      cases hcont : ch.delta.content with
      | none => simp only [hcont] at h; cases h
      | some s' =>
          simp only [hcont] at h
          by_cases hs' : s' = ""
          · rw [if_pos hs'] at h; cases h
          · rw [if_neg hs'] at h
            cases h
            exact hs'

/-- Every pre-terminal snapshot is a `deltaSnapshot` of some non-empty
accumulated text. -/
lemma deltaSnaps_mem :
    ∀ (chunks : List StreamChunk) (acc : String),
      ∀ r ∈ deltaSnaps chunks acc, ∃ s, r = deltaSnapshot s ∧ s ≠ "" := by
  intro chunks
  induction chunks with
  | nil => intro acc r hr; cases hr
  | cons c rest ih =>
      intro acc r hr
      cases h1 : chunkTruthyContent c with
      | none =>
          rw [show deltaSnaps (c :: rest) acc = deltaSnaps rest acc from by
            simp [deltaSnaps, h1]] at hr
          exact ih acc r hr
      | some s =>
          rw [show deltaSnaps (c :: rest) acc =
              deltaSnapshot (acc ++ s) :: deltaSnaps rest (acc ++ s) from by
            simp [deltaSnaps, h1]] at hr
          rcases List.mem_cons.mp hr with h | h
          · exact ⟨acc ++ s, h,
              append_ne_empty_of_right acc s (chunkTruthyContent_ne_empty c s h1)⟩
          · exact ih (acc ++ s) r h

/-- Processing a finish-free prefix yields exactly its delta snapshots,
followed by the processing of the remainder with the accumulated state. -/
lemma runStream_no_finish_append :
    ∀ (pre rest : List StreamChunk) (acc : String) (buf : List DeltaToolCall),
      (∀ c ∈ pre, chunkHasFinish c = false) →
      runStream (pre ++ rest) acc buf =
        (deltaSnaps pre acc ++ (runStream rest (accOver pre acc) (bufOver pre buf)).1,
         (runStream rest (accOver pre acc) (bufOver pre buf)).2) := by
  intro pre
  induction pre with
  | nil =>
      intro rest acc buf _
      simp [deltaSnaps, accOver, bufOver]
  | cons c pre' ih =>
      intro rest acc buf h
      have hc := h c (List.mem_cons_self _ _)
      have hpre' : ∀ x ∈ pre', chunkHasFinish x = false :=
        fun x hx => h x (List.mem_cons_of_mem _ hx)
      rw [List.cons_append, runStream_cons_no_finish c (pre' ++ rest) acc buf hc]
      rw [ih rest (acc ++ (chunkTruthyContent c).getD "") (buf ++ chunkFragments c) hpre']
      have haccO : accOver (c :: pre') acc =
          accOver pre' (acc ++ (chunkTruthyContent c).getD "") := rfl
      have hbufO : bufOver (c :: pre') buf = bufOver pre' (buf ++ chunkFragments c) := rfl
      rw [haccO, hbufO]
      cases h1 : chunkTruthyContent c with
      | none => simp [deltaSnaps, h1, String.append_empty]
      | some s => simp [deltaSnaps, h1, List.append_assoc]

/-! ## C5 — streaming snapshot sequence -/

/-- Success of the terminal fragment loop is pointwise success over the
`function`-tagged fragments: each such fragment's arguments parse, and each
yields exactly one function-call part, in order; untagged fragments contribute
nothing. -/
lemma streamCallParts_ok_forall2 :
    ∀ (l : List DeltaToolCall) (out : List Part),
      streamCallParts l = .ok out →
      List.Forall₂ (fun (tc : DeltaToolCall) (p : Part) => ∃ f v, tc.function = some f ∧
          parseToolArguments (f.arguments.getD "") = Except.ok v ∧
          p = { functionCall := some { name := f.name, args := v } })
        (l.filter (fun tc => tc.type = some "function")) out := by
  intro l
  induction l with
  | nil =>
      intro out h
      simp only [streamCallParts] at h
      cases h
      exact List.Forall₂.nil
  | cons tc rest ih =>
      intro out h
      by_cases htc : tc.type = some "function"
      · simp only [streamCallParts, if_pos htc] at h
        cases hf : tc.function with
        | none => rw [hf] at h; cases h
        | some f =>
            rw [hf] at h
            simp only [Bind.bind, Except.bind, Pure.pure, Except.pure] at h
            cases hp : parseToolArguments (f.arguments.getD "") with
            | error e => rw [hp] at h; cases h
            | ok v =>
                rw [hp] at h
                cases hr : streamCallParts rest with
                | error e => rw [hr] at h; cases h
                | ok ps =>
                    rw [hr] at h
                    cases h
                    rw [show (tc :: rest).filter (fun tc => tc.type = some "function") =
                        tc :: rest.filter (fun tc => tc.type = some "function") from by
                      simp [List.filter_cons, htc]]
                    exact List.Forall₂.cons ⟨f, v, hf, hp, rfl⟩ (ih ps hr)
      · simp only [streamCallParts, if_neg htc] at h
        rw [show (tc :: rest).filter (fun tc => tc.type = some "function") =
            rest.filter (fun tc => tc.type = some "function") from by
          simp [List.filter_cons, htc]]
        exact ih out h

/-- Shape of a successful terminal snapshot. -/
lemma createStreamResponse_ok (s : String) (tcs : List DeltaToolCall)
    (r : GenerateContentResponse)
    (h : createStreamResponse s true (some tcs) = .ok r) :
    ∃ ps, streamCallParts tcs = .ok ps ∧
      r = { candidates :=
              [{ content :=
                   { role := "model",
                     parts := (if s ≠ "" then [Part.textPart s] else []) ++ ps },
                 finishReason := some "stop",
                 index := 0 }],
            usageMetadata := none } := by
  simp only [createStreamResponse, Bind.bind, Except.bind, Pure.pure, Except.pure] at h
  cases hsp : streamCallParts tcs with
  | error e => rw [hsp] at h; cases h
  | ok ps =>
      rw [hsp] at h
      cases h
      exact ⟨ps, rfl, rfl⟩

/-- C5 (amended): consuming a stream whose first finish-bearing event is `t`,
after a finish-free prefix `pre` and before arbitrary further events `post`:
the emitted snapshots are exactly the per-text-delta snapshots of `pre ++ [t]`
(each a single-text-part snapshot of the entire accumulated text so far with
finishReason unset), followed — when every buffered fragment tagged
`type = 'function'` has JSON-parsable arguments — by one terminal snapshot
with finishReason `"stop"` and index 0 whose parts are the accumulated text
(if any) plus one function-call part per *function-tagged* buffered fragment
(untagged continuation fragments are dropped); when some tagged fragment's
arguments do not parse, the stream instead aborts with a wrapped error after
the delta snapshots.  Nothing is emitted after the terminal event: `post` is
never consumed. -/
theorem c5_stream_terminal (pre : List StreamChunk) (t : StreamChunk)
    (post : List StreamChunk)
    (hpre : ∀ c ∈ pre, chunkHasFinish c = false)
    (ht : chunkHasFinish t = true) :
    generateContentStreamOfChunks (pre ++ t :: post) =
      (match createStreamResponse (accOver (pre ++ [t]) "") true
          (some (bufOver (pre ++ [t]) [])) with
       | .ok r => (deltaSnaps (pre ++ [t]) "" ++ [r], none)
       | .error e => (deltaSnaps (pre ++ [t]) "", some ("OpenAI API error: " ++ e))) ∧
    (∀ r, createStreamResponse (accOver (pre ++ [t]) "") true
        (some (bufOver (pre ++ [t]) [])) = .ok r →
      ∃ ps, r = { candidates :=
                    [{ content :=
                         { role := "model",
                           parts := (if accOver (pre ++ [t]) "" ≠ "" then
                               [Part.textPart (accOver (pre ++ [t]) "")] else []) ++ ps },
                       finishReason := some "stop",
                       index := 0 }],
                  usageMetadata := none } ∧
        List.Forall₂ (fun (tc : DeltaToolCall) (p : Part) => ∃ f v, tc.function = some f ∧
            parseToolArguments (f.arguments.getD "") = Except.ok v ∧
            p = { functionCall := some { name := f.name, args := v } })
          ((bufOver (pre ++ [t]) []).filter (fun tc => tc.type = some "function")) ps) ∧
    (∀ r ∈ deltaSnaps (pre ++ [t]) "", ∃ s, r = deltaSnapshot s ∧ s ≠ "") := by
  refine ⟨?_, ?_, deltaSnaps_mem (pre ++ [t]) ""⟩
  · unfold generateContentStreamOfChunks
    rw [runStream_no_finish_append pre (t :: post) "" [] hpre]
    rw [runStream_cons_finish t post (accOver pre "") (bufOver pre []) ht]
    have hacc : accOver (pre ++ [t]) "" =
        accOver pre "" ++ (chunkTruthyContent t).getD "" := by
      rw [accOver_append]
      simp [accOver]
    have hbuf : bufOver (pre ++ [t]) [] = bufOver pre [] ++ chunkFragments t := by
      rw [bufOver_append]
      simp [bufOver]
    have hds : deltaSnaps (pre ++ [t]) "" =
        deltaSnaps pre "" ++
          (chunkTruthyContent t).elim []
            (fun s => [deltaSnapshot (accOver pre "" ++ s)]) := by
      rw [deltaSnaps_append]
      congr 1
      cases h1 : chunkTruthyContent t <;> simp [deltaSnaps, h1]
    rw [hacc, hbuf, hds]
    cases hcr : createStreamResponse (accOver pre "" ++ (chunkTruthyContent t).getD "") true
        (some (bufOver pre [] ++ chunkFragments t)) with
    | ok r => simp [hcr, List.append_assoc]
    | error e => simp [hcr, List.append_assoc]
  · intro r hok
    obtain ⟨ps, hps, hr⟩ := createStreamResponse_ok _ _ r hok
    exact ⟨ps, hr, streamCallParts_ok_forall2 _ ps hps⟩

/-- An event carrying one *untagged* tool-call fragment (as continuation
fragments of a split tool call arrive) and no text. -/
def c5UntaggedFragChunk : StreamChunk :=
  ⟨[{ delta := { content := none,
                 tool_calls := some [{ type := none,
                                       function := some { name := none,
                                                          arguments := some "\"x\"" } }] },
      finish_reason := none }]⟩

def c5FinishChunk : StreamChunk :=
  ⟨[{ delta := { content := none, tool_calls := none }, finish_reason := some "stop" }]⟩

/-- C5 counterexample: one tool-call fragment is buffered, yet the terminal
snapshot carries *no* function-call part — the fragment lacks the
`type = 'function'` tag, so the terminal flush drops it.  The claim's "one
function-call part per buffered tool-call fragment" fails. -/
theorem c5_counterexample :
    (bufOver [c5UntaggedFragChunk, c5FinishChunk] []).length = 1 ∧
    generateContentStreamOfChunks [c5UntaggedFragChunk, c5FinishChunk] =
      ([{ candidates := [{ content := { role := "model", parts := [] },
                           finishReason := some "stop", index := 0 }],
          usageMetadata := none }],
       none) :=
  ⟨rfl, rfl⟩

def c5TextChunk : StreamChunk :=
  ⟨[{ delta := { content := some "he", tool_calls := none }, finish_reason := none }]⟩

def c5TaggedFinishChunk : StreamChunk :=
  ⟨[{ delta := { content := none,
                 tool_calls := some [{ type := some "function",
                                       function := some { name := some "f",
                                                          arguments := some "\x7b\x7d" } }] },
      finish_reason := some "stop" }]⟩

/-- Witness for C5: a text delta followed by a finish event carrying one
function-tagged fragment with parsable arguments. -/
theorem c5_stream_terminal_witness :
    (∀ c ∈ [c5TextChunk], chunkHasFinish c = false) ∧
    chunkHasFinish c5TaggedFinishChunk = true ∧
    (generateContentStreamOfChunks ([c5TextChunk] ++ c5TaggedFinishChunk :: []) =
       (match createStreamResponse (accOver ([c5TextChunk] ++ [c5TaggedFinishChunk]) "") true
           (some (bufOver ([c5TextChunk] ++ [c5TaggedFinishChunk]) [])) with
        | .ok r => (deltaSnaps ([c5TextChunk] ++ [c5TaggedFinishChunk]) "" ++ [r], none)
        | .error e => (deltaSnaps ([c5TextChunk] ++ [c5TaggedFinishChunk]) "",
            some ("OpenAI API error: " ++ e))) ∧
     (∀ r, createStreamResponse (accOver ([c5TextChunk] ++ [c5TaggedFinishChunk]) "") true
         (some (bufOver ([c5TextChunk] ++ [c5TaggedFinishChunk]) [])) = .ok r →
       ∃ ps, r = { candidates :=
                     [{ content :=
                          { role := "model",
                            parts := (if accOver ([c5TextChunk] ++ [c5TaggedFinishChunk]) "" ≠ ""
                                then [Part.textPart
                                  (accOver ([c5TextChunk] ++ [c5TaggedFinishChunk]) "")]
                                else []) ++ ps },
                        finishReason := some "stop",
                        index := 0 }],
                   usageMetadata := none } ∧
         List.Forall₂ (fun (tc : DeltaToolCall) (p : Part) => ∃ f v, tc.function = some f ∧
             parseToolArguments (f.arguments.getD "") = Except.ok v ∧
             p = { functionCall := some { name := f.name, args := v } })
           ((bufOver ([c5TextChunk] ++ [c5TaggedFinishChunk]) []).filter
             (fun tc => tc.type = some "function")) ps) ∧
     (∀ r ∈ deltaSnaps ([c5TextChunk] ++ [c5TaggedFinishChunk]) "",
        ∃ s, r = deltaSnapshot s ∧ s ≠ "")) :=
  ⟨by decide, rfl,
   c5_stream_terminal [c5TextChunk] c5TaggedFinishChunk [] (by decide) rfl⟩

/-! ## C10 — stream with no finish event -/

/-- C10: a backend stream containing no finish-bearing event yields only the
per-text-delta snapshots — each a single-text-part snapshot of the entire
text accumulated so far, with finishReason unset — and then terminates: no
terminal snapshot is emitted, no error is raised, and buffered tool-call
fragments are never surfaced (no snapshot carries any function-call part). -/
theorem c10_stream_without_finish (chunks : List StreamChunk)
    (h : ∀ c ∈ chunks, chunkHasFinish c = false) :
    generateContentStreamOfChunks chunks = (deltaSnaps chunks "", none) ∧
    (∀ r ∈ deltaSnaps chunks "", ∃ s, r = deltaSnapshot s ∧ s ≠ "" ∧
       r.candidates.map (fun cand => cand.finishReason) = [none] ∧
       r.candidates.map (fun cand => cand.content.parts) = [[Part.textPart s]]) := by
  constructor
  · have hmain := runStream_no_finish_append chunks [] "" [] h
    rw [List.append_nil] at hmain
    unfold generateContentStreamOfChunks
    rw [hmain]
    simp [runStream]
  · intro r hr
    obtain ⟨s, hs, hne⟩ := deltaSnaps_mem chunks "" r hr
    subst hs
    exact ⟨s, rfl, hne, rfl, rfl⟩

def c10TextChunk : StreamChunk :=
  ⟨[{ delta := { content := some "a", tool_calls := none }, finish_reason := none }]⟩

def c10FragChunk : StreamChunk :=
  ⟨[{ delta := { content := none,
                 tool_calls := some [{ type := some "function",
                                       function := some { name := some "g",
                                                          arguments := some "\x7b\x7d" } }] },
      finish_reason := none }]⟩

/-- Witness for C10: a text delta and a buffered fragment, no finish event. -/
theorem c10_stream_without_finish_witness :
    (∀ c ∈ [c10TextChunk, c10FragChunk], chunkHasFinish c = false) ∧
    (generateContentStreamOfChunks [c10TextChunk, c10FragChunk] =
       (deltaSnaps [c10TextChunk, c10FragChunk] "", none) ∧
     (∀ r ∈ deltaSnaps [c10TextChunk, c10FragChunk] "",
        ∃ s, r = deltaSnapshot s ∧ s ≠ "" ∧
          r.candidates.map (fun cand => cand.finishReason) = [none] ∧
          r.candidates.map (fun cand => cand.content.parts) = [[Part.textPart s]])) :=
  ⟨by decide, c10_stream_without_finish [c10TextChunk, c10FragChunk] (by decide)⟩

/-! ## C9 — parts of response-path candidates -/

lemma completionCallParts_text_none :
    ∀ (l : List CompletionToolCall) (out : List Part),
      completionCallParts l = .ok out → ∀ p ∈ out, p.text = none := by
  intro l
  induction l with
  | nil =>
      intro out h p hp
      simp only [completionCallParts] at h
      cases h
      cases hp
  | cons tc rest ih =>
      intro out h p hp
      simp only [completionCallParts, Bind.bind, Except.bind, Pure.pure, Except.pure] at h
      cases hp' : parseToolArguments tc.function.arguments with
      | error e => rw [hp'] at h; cases h
      | ok v =>
          rw [hp'] at h
          cases hr : completionCallParts rest with
          | error e => rw [hr] at h; cases h
          | ok ps =>
              rw [hr] at h
              cases h
              rcases List.mem_cons.mp hp with h1 | h1
              · subst h1; rfl
              · exact ih ps hr p h1

lemma streamCallParts_text_none :
    ∀ (l : List DeltaToolCall) (out : List Part),
      streamCallParts l = .ok out → ∀ p ∈ out, p.text = none := by
  intro l
  induction l with
  | nil =>
      intro out h p hp
      simp only [streamCallParts] at h
      cases h
      cases hp
  | cons tc rest ih =>
      intro out h p hp
      by_cases htc : tc.type = some "function"
      · simp only [streamCallParts, if_pos htc] at h
        cases hf : tc.function with
        | none => rw [hf] at h; cases h
        | some f =>
            rw [hf] at h
            simp only [Bind.bind, Except.bind, Pure.pure, Except.pure] at h
            cases hp' : parseToolArguments (f.arguments.getD "") with
            | error e => rw [hp'] at h; cases h
            | ok v =>
                rw [hp'] at h
                cases hr : streamCallParts rest with
                | error e => rw [hr] at h; cases h
                | ok ps =>
                    rw [hr] at h
                    cases h
                    rcases List.mem_cons.mp hp with h1 | h1
                    · subst h1; rfl
                    · exact ih ps hr p h1
      · simp only [streamCallParts, if_neg htc] at h
        exact ih out h p hp

lemma deltaSnapshot_parts_props (s : String) (hs : s ≠ "") :
    ∀ cand ∈ (deltaSnapshot s).candidates,
      (∀ p ∈ cand.content.parts, p.text ≠ some "") ∧ cand.content.parts ≠ [] := by
  intro cand hcand
  have hcand' := List.mem_singleton.mp hcand
  subst hcand'
  refine ⟨fun p hp => ?_, by simp⟩
  have hp' := List.mem_singleton.mp hp
  subst hp'
  simpa [Part.textPart] using hs

lemma mem_elim_snapshot (c : StreamChunk) (acc : String) (r : GenerateContentResponse)
    (h1 : r ∈ (chunkTruthyContent c).elim [] (fun s => [deltaSnapshot (acc ++ s)])) :
    ∃ s, r = deltaSnapshot s ∧ s ≠ "" := by
  cases hct : chunkTruthyContent c with
  | none => rw [hct] at h1; cases h1
  | some s =>
      rw [hct] at h1
      exact ⟨acc ++ s, List.mem_singleton.mp h1,
        append_ne_empty_of_right acc s (chunkTruthyContent_ne_empty c s hct)⟩

/-- Every snapshot a stream run emits: no empty text part anywhere, and every
pre-terminal snapshot (finishReason unset) has a non-empty parts list. -/
lemma runStream_snapshot_props :
    ∀ (chunks : List StreamChunk) (acc : String) (buf : List DeltaToolCall),
      ∀ r ∈ (runStream chunks acc buf).1, ∀ cand ∈ r.candidates,
        (∀ p ∈ cand.content.parts, p.text ≠ some "") ∧
        (cand.finishReason = none → cand.content.parts ≠ []) := by
  intro chunks
  induction chunks with
  | nil =>
      intro acc buf r hr
      simp [runStream] at hr
  | cons c rest ih =>
      intro acc buf r hr cand hcand
      cases hfin : chunkHasFinish c with
      | false =>
          rw [runStream_cons_no_finish c rest acc buf hfin] at hr
          rcases List.mem_append.mp hr with h1 | h1
          · obtain ⟨s, hrs, hsne⟩ := mem_elim_snapshot c acc r h1
            subst hrs
            obtain ⟨ha, hb⟩ := deltaSnapshot_parts_props s hsne cand hcand
            exact ⟨ha, fun _ => hb⟩
          · exact ih (acc ++ (chunkTruthyContent c).getD "") (buf ++ chunkFragments c)
              r h1 cand hcand
      | true =>
          rw [runStream_cons_finish c rest acc buf hfin] at hr
          rcases List.mem_append.mp hr with h1 | h1
          · obtain ⟨s, hrs, hsne⟩ := mem_elim_snapshot c acc r h1
            subst hrs
            obtain ⟨ha, hb⟩ := deltaSnapshot_parts_props s hsne cand hcand
            exact ⟨ha, fun _ => hb⟩
          · cases hcr : createStreamResponse (acc ++ (chunkTruthyContent c).getD "") true
                (some (buf ++ chunkFragments c)) with
            | ok r' =>
                rw [hcr] at h1
                have hrr := List.mem_singleton.mp h1
                subst hrr
                obtain ⟨ps, hps, hshape⟩ := createStreamResponse_ok _ _ r hcr
                rw [hshape] at hcand
                have hcand' := List.mem_singleton.mp hcand
                subst hcand'
                constructor
                · intro p hp
                  rcases List.mem_append.mp hp with h2 | h2
                  · by_cases hA : (acc ++ (chunkTruthyContent c).getD "") ≠ ""
                    · rw [if_pos hA] at h2
                      have hp' := List.mem_singleton.mp h2
                      subst hp'
                      simpa [Part.textPart] using hA
                    · rw [if_neg hA] at h2
                      cases h2
                  · rw [streamCallParts_text_none _ ps hps p h2]
                    simp
                · intro hfr
                  simp at hfr
            | error e =>
                rw [hcr] at h1
                cases h1

/-- C9 (amended): the response path never emits an empty *text* part — empty
text is filtered, both non-streaming and streaming — and the parts list is
non-empty whenever the backend message carries truthy content (non-streaming)
and in every pre-terminal streaming snapshot; but a candidate with an *empty
parts list* is emitted when the backend supplies neither message content nor
tool calls (see the counterexample), so the claim's blanket "parts is never
empty" does not hold of the code. -/
theorem c9_response_parts :
    (∀ (completion : ChatCompletion) (r : GenerateContentResponse),
       convertOpenAIResponseToGenAI completion = .ok r →
       ∀ cand ∈ r.candidates, ∀ p ∈ cand.content.parts, p.text ≠ some "") ∧
    (∀ (completion : ChatCompletion) (choice : CompletionChoice)
       (r : GenerateContentResponse),
       completion.choices.head? = some choice →
       jsTruthy choice.message.content = true →
       convertOpenAIResponseToGenAI completion = .ok r →
       ∀ cand ∈ r.candidates, cand.content.parts ≠ []) ∧
    (∀ chunks : List StreamChunk, ∀ r ∈ (generateContentStreamOfChunks chunks).1,
       ∀ cand ∈ r.candidates,
         (∀ p ∈ cand.content.parts, p.text ≠ some "") ∧
         (cand.finishReason = none → cand.content.parts ≠ [])) := by
  refine ⟨?_, ?_, ?_⟩
  · intro completion r hok cand hcand p hp
    cases hchoice : completion.choices.head? with
    | none =>
        unfold convertOpenAIResponseToGenAI at hok
        simp only [hchoice] at hok
        cases hok
        cases hcand
    | some choice =>
        obtain ⟨ps, hps, hr⟩ := convert_ok_shape completion choice r hchoice hok
        rw [hr] at hcand
        have hcand' := List.mem_singleton.mp hcand
        subst hcand'
        rcases List.mem_append.mp hp with h2 | h2
        · by_cases hT : jsTruthy choice.message.content = true
          · rw [if_pos hT] at h2
            have hp' := List.mem_singleton.mp h2
            subst hp'
            simpa [Part.textPart] using jsTruthy_getD_ne_empty choice.message.content hT
          · rw [if_neg hT] at h2
            cases h2
        · rw [completionCallParts_text_none _ ps hps p h2]
          simp
  · intro completion choice r hchoice hT hok cand hcand
    obtain ⟨ps, hps, hr⟩ := convert_ok_shape completion choice r hchoice hok
    rw [hr] at hcand
    have hcand' := List.mem_singleton.mp hcand
    subst hcand'
    simp [hT]
  · intro chunks
    exact runStream_snapshot_props chunks "" []

/-- A completion whose message has neither content nor tool calls. -/
def c9EmptyCompletion : ChatCompletion :=
  { choices := [{ message := { content := none, tool_calls := none },
                  finish_reason := some "stop", index := 0 }],
    usage := none }

def c9FinishOnlyChunk : StreamChunk :=
  ⟨[{ delta := { content := none, tool_calls := none }, finish_reason := some "stop" }]⟩

/-- C9 counterexample: a completion with neither content nor tool calls
yields a candidate whose parts list is empty, and a stream consisting of a
bare finish event yields a terminal snapshot whose parts list is empty — the
claimed invariant "parts is never empty" fails on both response paths. -/
theorem c9_counterexample :
    convertOpenAIResponseToGenAI c9EmptyCompletion =
      .ok { candidates := [{ content := { role := "model", parts := [] },
                             finishReason := some "stop", index := 0 }],
            usageMetadata := some { promptTokenCount := none, candidatesTokenCount := none,
                                    totalTokenCount := none } } ∧
    generateContentStreamOfChunks [c9FinishOnlyChunk] =
      ([{ candidates := [{ content := { role := "model", parts := [] },
                           finishReason := some "stop", index := 0 }],
          usageMetadata := none }],
       none) :=
  ⟨rfl, rfl⟩

def c9Completion : ChatCompletion :=
  { choices := [{ message := { content := some "ok", tool_calls := none },
                  finish_reason := some "stop", index := 0 }],
    usage := none }

def c9Choice : CompletionChoice :=
  { message := { content := some "ok", tool_calls := none },
    finish_reason := some "stop", index := 0 }

def c9Result : GenerateContentResponse :=
  { candidates := [{ content := { role := "model", parts := [Part.textPart "ok"] },
                     finishReason := some "stop", index := 0 }],
    usageMetadata := some { promptTokenCount := none, candidatesTokenCount := none,
                            totalTokenCount := none } }

/-- Witness for C9's conditioned conjunct at a completion with content. -/
theorem c9_response_parts_witness :
    c9Completion.choices.head? = some c9Choice ∧
    jsTruthy c9Choice.message.content = true ∧
    convertOpenAIResponseToGenAI c9Completion = .ok c9Result ∧
    (∀ cand ∈ c9Result.candidates, cand.content.parts ≠ []) :=
  ⟨rfl, rfl, rfl, c9_response_parts.2.1 c9Completion c9Choice c9Result rfl rfl rfl⟩

end UnlockGemini
